import Mathlib

set_option autoImplicit false

/-
Shallow embedding of the chatx Hub (src/internal/hub/hub.go, NATS-enabled
version), together with the room package (src/unnamed/part_007, package room),
the client package (src/unnamed/part_008, plus the RegisteredOnce / UserID /
Name fields used by hub.go), the NATS client surface (src/internal/nats/nats.go)
and the message-size validator (src/internal/validator/validator.go).

Sessions and rooms are Go heap objects referenced by pointer; we model object
identity with numeric ids into arenas carried by the Hub state.  External I/O
(websocket writes, NATS publishes, channel sends) is modelled as append-only
logs inside the Hub state; write success/failure and clock reads are supplied
by an explicit environment.  Database effects that are never read back by the
hub (membership rows, chat persistence) are omitted; the rooms table is kept
because CreateRoom reads it for the existence check and LoadRoomsFromDB reads
it at bootstrap.
-/

deriving instance DecidableEq for Except

namespace ChatX

abbrev ClientId := Nat
abbrev RoomId := Nat

/-- Abstract model of the bcrypt library (golang.org/x/crypto/bcrypt) as used
by hub.go: `generate` is GenerateFromPassword (salt nondeterminism elided),
`compare h p` is CompareHashAndPassword(h, p) returning true on nil error, and
`validFormat` says whether a string parses as a bcrypt hash (bcrypt hashes
start with a version marker; CompareHashAndPassword errors out on any string
that does not parse as a hash). -/
structure Bcrypt where
  generate : String → String
  compare : String → String → Bool
  validFormat : String → Bool
  generate_valid : ∀ p, validFormat (generate p) = true
  compare_generate_self : ∀ p, compare (generate p) p = true
  compare_invalid : ∀ h p, validFormat h = false → compare h p = false
  compare_generate_ne : ∀ p q, p ≠ q → compare (generate p) q = false

/-- Room (src/unnamed/part_007, package room).  The Created timestamp and the
persistence ID are irrelevant to every claim and omitted.  MaxClients is a Go
int.  Member identity is by pointer, modelled as ClientId. -/
structure Room where
  Name : String
  Clients : List ClientId
  Private : Bool
  Password : String
  MaxClients : Int
  Active : Bool
  Creator : Option ClientId
deriving DecidableEq

/-- NewRoom (part_007): creator nil, active true, password stored as given. -/
def Room.new (name : String) (priv : Bool) (password : String)
    (maxClients : Int) : Room :=
  { Name := name
    Clients := []
    Private := priv
    Password := password
    MaxClients := maxClients
    Active := true
    Creator := none }

/-- Room.AddClient: fails (no mutation) when len(Clients) >= MaxClients,
otherwise inserts and succeeds. -/
def Room.addClient (r : Room) (c : ClientId) : Room × Bool :=
  if (r.Clients.length : Int) ≥ r.MaxClients then (r, false)
  else ({ r with Clients := r.Clients.insert c }, true)

/-- Room.RemoveClient: plain map delete. -/
def Room.removeClient (r : Room) (c : ClientId) : Room :=
  { r with Clients := r.Clients.erase c }

/-- Room.IsCreator: pointer equality with the (nullable) creator. -/
def Room.isCreator (r : Room) (c : ClientId) : Bool :=
  r.Creator = some c

/-- Room.SetCreator. -/
def Room.setCreator (r : Room) (c : ClientId) : Room :=
  { r with Creator := some c }

/-- Client session (src/unnamed/part_008 plus the RegisteredOnce / UserID /
Name fields hub.go uses).  Registered models the one-shot latch (the closed
channel); RegisteredOnce models the sync.Once guarding its close. -/
structure Client where
  Name : String
  UserID : String
  CurrentRoom : Option RoomId
  Registered : Bool
  RegisteredOnce : Bool
deriving DecidableEq

/-- A fresh session as the transport creates it: latch pending, no room. -/
def Client.new (name : String) (userId : String) : Client :=
  { Name := name, UserID := userId, CurrentRoom := none
    Registered := false, RegisteredOnce := false }

/-- types.Message as used by hub.go and nats.go (Envelope of spec section 3):
content bytes as a String, sender and room held by reference, MessageID empty
for locally originated envelopes, ServerID empty for local origin.  The
timestamp is irrelevant to every claim and omitted. -/
structure Message where
  MessageID : String
  Content : String
  Sender : Option ClientId
  Typ : String
  Room : Option RoomId
  ServerID : String
deriving DecidableEq

/-- Message type constants (internal/types/types.go). -/
def MsgTypeChat : String := "chat"

def MsgTypeLeave : String := "leave"

def MsgTypeRoomJoin : String := "room_join"

def MsgTypeRoomLeave : String := "room_leave"

def MsgTypeRoomMessage : String := "room_message"

def MsgTypeDeleteRoom : String := "delete_room"

def MsgTypeRoomSync : String := "room_sync"

/-- NATS subject constants (internal/nats/nats.go). -/
def SubjectGlobalChat : String := "chat.global"

def SubjectRoomSync : String := "room.sync"

/-- RoomSubject (internal/nats/nats.go): "chat.room.<name>". -/
def roomSubject (roomName : String) : String :=
  "chat.room." ++ roomName

/-- Server id generation in nats.NewClient:
fmt.Sprintf("server-%d", time.Now().UnixNano()). -/
def mkServerID (nano : Int) : String :=
  "server-" ++ toString nano

/-- ValidateMessageSize (internal/validator/validator.go): ok iff
MinMessageSize (1) <= size <= maxSize and size <= MaxMessageSize (1 MiB). -/
def validMessageSize (size maxSize : Int) : Bool :=
  1 ≤ size ∧ size ≤ maxSize ∧ size ≤ 1048576

/-- Environment for one hub call: connection presence (client.Conn != nil),
write success, the validator's configured max message size, and the two clock
reads hub.go performs (formatted timestamp, UnixNano). -/
structure Env where
  hasConn : ClientId → Bool
  writeOk : ClientId → Bool
  maxMessageSize : Int
  nowTimestamp : String
  nowNano : Int

/-- A row of the rooms table as far as the hub reads it back
(Repo.CreateRoom writes name, private, password_hash; GetRoomByName and
GetAllRooms read them). -/
structure DbRoom where
  name : String
  priv : Bool
  passwordHash : Option String
deriving DecidableEq

/-- The Hub (hub.go).  Registries and the index are total functions from ids;
roomOf / clientOf are the pointer arenas.  pubs, sent, broadcastQueue and
unregQueue are the observable effect logs: NATS publishes, websocket writes,
sends to the Broadcast channel, sends to the Unregister channel. -/
structure Hub where
  Clients : List ClientId
  Rooms : String → Option RoomId
  ClientRooms : ClientId → Option RoomId
  roomOf : RoomId → Room
  clientOf : ClientId → Client
  UserCount : Int
  RepoEnabled : Bool
  NATSEnabled : Bool
  serverID : String
  dbRooms : List DbRoom
  subs : List String
  pubs : List (String × Message)
  sent : List (ClientId × String)
  broadcastQueue : List Message
  unregQueue : List ClientId
  nextRoom : RoomId

/-- NewHub over a given client population and database contents. -/
def Hub.new (repoEnabled natsEnabled : Bool) (serverID : String)
    (clientOf : ClientId → Client) (db : List DbRoom) : Hub :=
  { Clients := []
    Rooms := fun _ => none
    ClientRooms := fun _ => none
    roomOf := fun _ => Room.new "" false "" 0
    clientOf := clientOf
    UserCount := 0
    RepoEnabled := repoEnabled
    NATSEnabled := natsEnabled
    serverID := serverID
    dbRooms := db
    subs := []
    pubs := []
    sent := []
    broadcastQueue := []
    unregQueue := []
    nextRoom := 0 }

/-- Replace the room object a pointer designates. -/
def Hub.updateRoom (h : Hub) (rid : RoomId) (f : Room → Room) : Hub :=
  { h with roomOf := Function.update h.roomOf rid (f (h.roomOf rid)) }

/-- Replace the client object a pointer designates. -/
def Hub.updateClient (h : Hub) (c : ClientId) (f : Client → Client) : Hub :=
  { h with clientOf := Function.update h.clientOf c (f (h.clientOf c)) }

/-- Error taxonomy of the hub operations (spec section 7), carrying the exact
error strings hub.go returns. -/
inductive RoomError where
  | invalidName
  | alreadyExists
  | roomInactive
  | roomFull
  | invalidPassword
  | roomNotFound
  | notCreator
deriving DecidableEq

/-- The Go error strings. -/
def RoomError.message : RoomError → String
  | .invalidName => "invalid room name"
  | .alreadyExists => "room already exists"
  | .roomInactive => "room is not active"
  | .roomFull => "room is full"
  | .invalidPassword => "invalid password"
  | .roomNotFound => "room does not exist"
  | .notCreator => "only the room creator can delete this room"

/-- A concrete instance of the bcrypt interface, used only to instantiate
witnesses: hashing prepends a format marker, comparison is equality with the
recomputed hash. -/
def toyHash (p : String) : String :=
  String.mk ('$' :: '2' :: 'a' :: '$' :: p.data)

theorem toyHash_inj {p q : String} (h : toyHash p = toyHash q) : p = q := by
  have hd : p.data = q.data := by
    have := congrArg String.data h
    simpa [toyHash] using this
  cases p
  cases q
  exact congrArg String.mk hd

/-- The toy bcrypt oracle satisfying the interface laws. -/
def toyBcrypt : Bcrypt where
  generate := toyHash
  compare h p := h = toyHash p
  validFormat s := s.data.take 2 = ['$', '2']
  generate_valid p := by simp [toyHash]
  compare_generate_self p := by simp
  compare_invalid h p hv := by
    simp only [decide_eq_false_iff_not]
    intro he
    rw [he] at hv
    simp [toyHash] at hv
  compare_generate_ne p q hne := by
    simp only [decide_eq_false_iff_not]
    intro he
    exact hne (toyHash_inj he)

/-- The per-member write loop of BroadcastToRoom: skip members with nil
connections, skip the sender of room_message envelopes, abort the whole
broadcast on size-validation failure (the Go code does `return`, so the
collected removal list is dropped too), log successful writes, collect failed
writers.  Returns the hub, the removal list, and whether the loop completed. -/
def Hub.roomWriteLoop (env : Env) (roomName : String) (m : Message) :
    Hub → List ClientId → List ClientId → Hub × List ClientId × Bool
  | h, toRemove, [] => (h, toRemove, true)
  | h, toRemove, c :: rest =>
    if env.hasConn c = false then Hub.roomWriteLoop env roomName m h toRemove rest
    else if m.Typ = MsgTypeRoomMessage ∧ m.Sender = some c then
      Hub.roomWriteLoop env roomName m h toRemove rest
    else if validMessageSize (m.Content.utf8ByteSize : Int) env.maxMessageSize = false then
      (h, toRemove, false)
    else if env.writeOk c then
      Hub.roomWriteLoop env roomName m
        { h with sent := h.sent ++ [(c, "[" ++ roomName ++ "] " ++ m.Content)] } toRemove rest
    else Hub.roomWriteLoop env roomName m h (toRemove ++ [c]) rest

/-- BroadcastToRoom (hub.go): snapshot the member set, publish to the room's
NATS subject only when NATS is enabled and the envelope has an empty message
id, then run the write loop; finally push failed writers onto the Unregister
channel (unless the size-validation early return fired). -/
def Hub.broadcastToRoom (env : Env) (h : Hub) (rid : RoomId) (m : Message) : Hub :=
  let clients := (h.roomOf rid).Clients
  let roomName := (h.roomOf rid).Name
  let h1 := { h with pubs := h.pubs ++
      (if h.NATSEnabled = true ∧ m.MessageID = "" then [(roomSubject roomName, m)] else []) }
  let res := Hub.roomWriteLoop env roomName m h1 [] clients
  if res.2.2 = true then { res.1 with unregQueue := res.1.unregQueue ++ res.2.1 }
  else res.1

/-- leaveRoomInternal (hub.go): no-op when the session has no current room;
otherwise remove it from the room's member set, clear its current-room
pointer, delete it from the client-to-room index, write a leave confirmation
to it, and fan a room_leave notification (empty message id) into the room.
The repository membership delete is an external write, never read back. -/
def Hub.leaveRoomInternal (env : Env) (h : Hub) (c : ClientId) : Hub :=
  match (h.clientOf c).CurrentRoom with
  | none => h
  | some rid =>
    let h1 := h.updateRoom rid (fun r => r.removeClient c)
    let h2 := h1.updateClient c (fun cl => { cl with CurrentRoom := none })
    let h3 := { h2 with ClientRooms := Function.update h2.ClientRooms c none }
    let h4 := { h3 with sent := h3.sent ++
        (if env.writeOk c then
          [(c, "You have left the room \"" ++ (h3.roomOf rid).Name ++ "\"")] else []) }
    h4.broadcastToRoom env rid
      { MessageID := ""
        Content := "[" ++ env.nowTimestamp ++ "] " ++ (h4.clientOf c).Name ++ " has left the room"
        Sender := none, Typ := MsgTypeRoomLeave, Room := none, ServerID := "" }

/-- LeaveRoom (hub.go): lock acquisition elided, then leaveRoomInternal. -/
def Hub.leaveRoom (env : Env) (h : Hub) (c : ClientId) : Hub :=
  h.leaveRoomInternal env c

/-- JoinRoom (hub.go): claim the creator slot if empty (before any
validation), check active, provisionally add (RoomFull on failure), verify
the password for private rooms rolling the add back on mismatch, move the
session out of its previous room, add again, update pointer and index,
subscribe to the room's NATS subject (unconditionally), fan out the join
notification (synthesized non-empty message id), and write the welcome line.
The repository membership upsert is an external write, never read back. -/
def Hub.joinRoom (B : Bcrypt) (env : Env) (h : Hub) (c : ClientId) (rid : RoomId)
    (password : String) : Hub × Except RoomError Unit :=
  let h0 := if (h.roomOf rid).Creator = none then h.updateRoom rid (fun r => r.setCreator c) else h
  if (h0.roomOf rid).Active = false then (h0, .error .roomInactive)
  else
    let ar := (h0.roomOf rid).addClient c
    let h1 := { h0 with roomOf := Function.update h0.roomOf rid ar.1 }
    if ar.2 = false then (h1, .error .roomFull)
    else if (h1.roomOf rid).Private = true ∧
        B.compare (h1.roomOf rid).Password password = false then
      (h1.updateRoom rid (fun r => r.removeClient c), .error .invalidPassword)
    else
      let h2 := h1.leaveRoomInternal env c
      let h3 := { h2 with roomOf := Function.update h2.roomOf rid ((h2.roomOf rid).addClient c).1 }
      let h4 := h3.updateClient c (fun cl => { cl with CurrentRoom := some rid })
      let h5 := { h4 with ClientRooms := Function.update h4.ClientRooms c (some rid) }
      let h6 := { h5 with subs := h5.subs ++
          (if h5.NATSEnabled = true then [roomSubject (h5.roomOf rid).Name] else []) }
      let h7 := h6.broadcastToRoom env rid
        { MessageID := "join-" ++ toString env.nowNano ++ "-" ++ (h6.clientOf c).UserID
          Content := "[" ++ env.nowTimestamp ++ "] " ++ (h6.clientOf c).Name ++ " has joined the room"
          Sender := some c, Typ := MsgTypeRoomJoin, Room := none, ServerID := "" }
      let h8 := { h7 with sent := h7.sent ++
          (if env.hasConn c = true ∧ env.writeOk c = true then
            [(c, "[" ++ env.nowTimestamp ++ "] Welcome to room '" ++ (h7.roomOf rid).Name ++ "'!")]
          else []) }
      (h8, .ok ())

/-- GetRoomByName against the modelled rooms table. -/
def dbFindRoom (db : List DbRoom) (name : String) : Option DbRoom :=
  db.find? (fun r => r.name = name)

/-- The JSON payload of the room.sync publish; the exact marshalling is
irrelevant to every claim, an injective rendering is kept. -/
def roomSyncContent (name : String) (priv : Bool) (password : String)
    (maxClients : Int) : String :=
  "name=" ++ name ++ ";private=" ++ toString priv ++ ";password=" ++ password ++
    ";max=" ++ toString maxClients

/-- CreateRoom (hub.go): validate the name (Go len, i.e. UTF-8 bytes), check
existence in the store and in memory, install the new room (which stores the
password as given), persist a row whose password_hash is the bcrypt hash when
private and non-empty, and publish room.sync when NATS is enabled. -/
def Hub.createRoom (B : Bcrypt) (h : Hub) (name : String) (priv : Bool)
    (password : String) (maxClients : Int) : Hub × Except RoomError RoomId :=
  if name = "" ∨ name.utf8ByteSize > 50 then (h, .error .invalidName)
  else if h.RepoEnabled = true ∧ (dbFindRoom h.dbRooms name).isSome = true then
    (h, .error .alreadyExists)
  else if (h.Rooms name).isSome = true then (h, .error .alreadyExists)
  else
    let rid := h.nextRoom
    let h1 := { h with
      roomOf := Function.update h.roomOf rid (Room.new name priv password maxClients)
      Rooms := Function.update h.Rooms name (some rid)
      nextRoom := rid + 1 }
    let h2 := { h1 with dbRooms := h1.dbRooms ++
        (if h1.RepoEnabled = true then
          [({ name := name, priv := priv
              passwordHash := if priv = true ∧ password ≠ "" then
                some (B.generate password) else none } : DbRoom)]
        else []) }
    let h3 := { h2 with pubs := h2.pubs ++
        (if h2.NATSEnabled = true then
          [(SubjectRoomSync,
            ({ MessageID := "", Content := roomSyncContent name priv password maxClients
               Sender := none, Typ := MsgTypeRoomSync, Room := none, ServerID := "" } : Message))]
        else []) }
    (h3, .ok rid)

/-- DeleteRoom (hub.go): room must exist, caller must be the creator; then a
global deletion notification goes to the Broadcast channel and the room is
removed from the registry.  Member sets, current-room pointers and the
client-to-room index are not touched. -/
def Hub.deleteRoom (env : Env) (h : Hub) (c : ClientId) (roomName : String) :
    Hub × Except RoomError Unit :=
  match h.Rooms roomName with
  | none => (h, .error .roomNotFound)
  | some rid =>
    if (h.roomOf rid).isCreator c = false then (h, .error .notCreator)
    else
      let h1 := { h with broadcastQueue := h.broadcastQueue ++
          [({ MessageID := ""
              Content := "[" ++ env.nowTimestamp ++ "] Room '" ++ roomName ++
                "' has been deleted by " ++ (h.clientOf c).Name
              Sender := none, Typ := MsgTypeDeleteRoom, Room := none
              ServerID := "" } : Message)] }
      ({ h1 with Rooms := Function.update h1.Rooms roomName none }, .ok ())

/-- The Register case of Run (hub.go): install in the session registry,
increment the user count (both unconditionally), then RegisteredOnce.Do
(close Registered). -/
def Hub.registerStep (h : Hub) (c : ClientId) : Hub :=
  let h1 := { h with Clients := h.Clients.insert c, UserCount := h.UserCount + 1 }
  if (h1.clientOf c).RegisteredOnce = true then h1
  else h1.updateClient c (fun cl => { cl with RegisteredOnce := true, Registered := true })

/-- The Unregister case of Run (hub.go): remove from the registry and
decrement the count only if present (the transport close is external), then
unconditionally queue a global leave notification on Broadcast. -/
def Hub.unregisterStep (env : Env) (h : Hub) (c : ClientId) : Hub :=
  let h1 : Hub := if c ∈ h.Clients then
      { h with Clients := h.Clients.erase c, UserCount := h.UserCount - 1 } else h
  { h1 with broadcastQueue := h1.broadcastQueue ++
      [{ MessageID := ""
         Content := "[" ++ env.nowTimestamp ++ "] " ++ (h1.clientOf c).Name ++ " has left the chat"
         Sender := none, Typ := MsgTypeLeave, Room := none, ServerID := "" }] }

/-- The registry-wide write loop of the Broadcast case: skip the sender for
chat envelopes, skip nil connections, log successful writes, collect failed
writers. -/
def Hub.globalWriteLoop (env : Env) (m : Message) :
    Hub → List ClientId → List ClientId → Hub × List ClientId
  | h, toRemove, [] => (h, toRemove)
  | h, toRemove, c :: rest =>
    if m.Typ = MsgTypeChat ∧ m.Sender = some c then Hub.globalWriteLoop env m h toRemove rest
    else if env.hasConn c = false then Hub.globalWriteLoop env m h toRemove rest
    else if env.writeOk c then
      Hub.globalWriteLoop env m { h with sent := h.sent ++ [(c, m.Content)] } toRemove rest
    else Hub.globalWriteLoop env m h (toRemove ++ [c]) rest

/-- Removal of failed writers after the global fan-out. -/
def Hub.removeFailed : Hub → List ClientId → Hub
  | h, [] => h
  | h, c :: rest =>
    let h1 : Hub := if c ∈ h.Clients then
      { h with Clients := h.Clients.erase c, UserCount := h.UserCount - 1 } else h
    Hub.removeFailed h1 rest

/-- The Broadcast case of Run (hub.go): publish to chat.global only when NATS
is enabled, the envelope has no target room and an empty message id; then
either hand off to BroadcastToRoom (room envelopes) or fan out over the
session registry.  The chat persistence to the repository is an external
write, never read back. -/
def Hub.broadcastStep (env : Env) (h : Hub) (m : Message) : Hub :=
  let h1 := { h with pubs := h.pubs ++
      (if h.NATSEnabled = true ∧ m.Room = none ∧ m.MessageID = "" then
        [(SubjectGlobalChat, m)] else []) }
  match m.Room with
  | some rid => h1.broadcastToRoom env rid m
  | none =>
    let wr := Hub.globalWriteLoop env m h1 [] h1.Clients
    Hub.removeFailed wr.1 wr.2

/-- The chat.global subscription handler installed in Run: drop envelopes
whose non-empty origin server id equals this server's id, otherwise submit to
the Broadcast channel. -/
def Hub.globalChatHandler (h : Hub) (m : Message) : Hub :=
  if m.ServerID ≠ "" ∧ m.ServerID = h.serverID then h
  else { h with broadcastQueue := h.broadcastQueue ++ [m] }

/-- The per-room subscription handler installed by JoinRoom: same origin
check, then BroadcastToRoom on the captured room. -/
def Hub.roomSubHandler (env : Env) (h : Hub) (rid : RoomId) (m : Message) : Hub :=
  if m.ServerID ≠ "" ∧ m.ServerID = h.serverID then h
  else h.broadcastToRoom env rid m

/-- Installing one persisted room during bootstrap (LoadRoomsFromDB): a fresh
Room carrying the stored hash as its password, creator nil, max 100; the
registry entry is overwritten unconditionally. -/
def Hub.installDbRoom (h : Hub) (row : DbRoom) : Hub :=
  { h with
    roomOf := Function.update h.roomOf h.nextRoom
      (Room.new row.name row.priv (row.passwordHash.getD "") 100)
    Rooms := Function.update h.Rooms row.name (some h.nextRoom)
    nextRoom := h.nextRoom + 1 }

/-- LoadRoomsFromDB (hub.go): no-op without a repository. -/
def Hub.loadRoomsFromDB (h : Hub) : Hub :=
  if h.RepoEnabled = true then h.dbRooms.foldl Hub.installDbRoom h else h

/-- The membership agreement property (spec sections 4.3 and 8): member sets
have no duplicates (they are Go maps), the current-room pointer mirrors the
client-to-room index, and a session is in a room's member set exactly when the
index maps it there.  Appearing in at most one member set follows from the
last conjunct. -/
def Hub.Consistent (h : Hub) : Prop :=
  (∀ rid, (h.roomOf rid).Clients.Nodup) ∧
  (∀ c, (h.clientOf c).CurrentRoom = h.ClientRooms c) ∧
  (∀ c rid, c ∈ (h.roomOf rid).Clients ↔ h.ClientRooms c = some rid)

/-- Number of pending-to-resolved transitions of c's Registered latch along a
sequence of processed Register events. -/
def Hub.resolveCount (h : Hub) (c : ClientId) : List ClientId → Nat
  | [] => 0
  | e :: rest =>
    (if (h.clientOf c).Registered = false ∧ ((h.registerStep e).clientOf c).Registered = true
      then 1 else 0) + (h.registerStep e).resolveCount c rest

/-- Environment used by the concrete scenarios: all connections present, all
writes succeed, default 64 KiB size limit, fixed clock. -/
def demoEnv : Env :=
  { hasConn := fun _ => true, writeOk := fun _ => true, maxMessageSize := 65536
    nowTimestamp := "12:00:00", nowNano := 7 }

/-- Client arena of the concrete scenarios: fresh anonymous sessions. -/
def demoClientOf : ClientId → Client :=
  fun c => Client.new ("user" ++ toString c) ""

/-- One persisted private room whose stored hash is the bcrypt hash of
"sekret" (as Repo.CreateRoom would have written it). -/
def demoDb : List DbRoom :=
  [{ name := "beta", priv := true, passwordHash := some (toyBcrypt.generate "sekret") }]

/-- A hub bootstrapped from that database: room "beta" lives at room id 0
with the bcrypt hash as its in-memory password. -/
def demoHub0 : Hub := (Hub.new true false "server-1" demoClientOf demoDb).loadRoomsFromDB

/-- Session 1 joins "beta" with the correct password (succeeds: the stored
password is the hash, so the bcrypt comparison passes). -/
def demoJoin1 : Hub × Except RoomError Unit :=
  demoHub0.joinRoom toyBcrypt demoEnv 1 0 "sekret"

/-- The same session, now a member, calls JoinRoom on "beta" again with a
wrong password. -/
def demoJoin2 : Hub × Except RoomError Unit :=
  demoJoin1.1.joinRoom toyBcrypt demoEnv 1 0 "nope"

/-- A bus-enabled hub with no repository. -/
def natsHub0 : Hub := Hub.new false true (mkServerID 99) demoClientOf []

/-- Public room "alpha" created on it (room id 0). -/
def natsHub1 : Hub := (natsHub0.createRoom toyBcrypt "alpha" false "" 100).1

/-- Session 1 joins "alpha". -/
def natsJoinA : Hub × Except RoomError Unit :=
  natsHub1.joinRoom toyBcrypt demoEnv 1 0 ""

/-- Session 2 joins "alpha" as well. -/
def natsJoinB : Hub × Except RoomError Unit :=
  natsJoinA.1.joinRoom toyBcrypt demoEnv 2 0 ""

/-- The creator (session 1) deletes "alpha" while session 2 is a member. -/
def natsDelete : Hub × Except RoomError Unit :=
  natsJoinB.1.deleteRoom demoEnv 1 "alpha"

/-- A bare hub for the registration scenario. -/
def regHub : Hub := Hub.new false false "server-1" demoClientOf []

/-- Register processed once for session 5. -/
def regOnce : Hub := regHub.registerStep 5

/-- Register processed a second time for the same session. -/
def regTwice : Hub := regOnce.registerStep 5

/-- A 26-character name of two-byte characters: 26 chars, 52 UTF-8 bytes. -/
def alphaName : String := String.mk (List.replicate 26 'α')

/-- A repository-backed hub with an empty database. -/
def c2Hub0 : Hub := Hub.new true false "server-1" demoClientOf []

/-- CreateRoom of a private room with password "sekret" on it (room id 0). -/
def c2Create : Hub × Except RoomError RoomId :=
  c2Hub0.createRoom toyBcrypt "beta" true "sekret" 10

/-- JoinRoom of that freshly created private room with the same, correct
password. -/
def c2Join : Hub × Except RoomError Unit :=
  c2Create.1.joinRoom toyBcrypt demoEnv 1 0 "sekret"

/-- A bare hub for the creator-claim scenario. -/
def c10Hub0 : Hub := Hub.new false false "server-1" demoClientOf []

/-- Room "gamma" with zero capacity created on it (room id 0), so any join
fails with RoomFull. -/
def c10Hub1 : Hub := (c10Hub0.createRoom toyBcrypt "gamma" false "" 0).1

/-- Session 1 attempts to join the zero-capacity room. -/
def c10Join : Hub × Except RoomError Unit :=
  c10Hub1.joinRoom toyBcrypt demoEnv 1 0 ""

/-- A bus-enabled hub whose server id was generated from clock value 3. -/
def c5Hub : Hub := Hub.new false true (mkServerID 3) demoClientOf []

/-- A bus envelope originated by that same server. -/
def c5Msg : Message :=
  { MessageID := "17-chat", Content := "hello", Sender := none
    Typ := MsgTypeChat, Room := none, ServerID := mkServerID 3 }

@[simp] theorem setCreator_Clients (r : Room) (c : ClientId) :
    (r.setCreator c).Clients = r.Clients := rfl

@[simp] theorem setCreator_Active (r : Room) (c : ClientId) :
    (r.setCreator c).Active = r.Active := rfl

@[simp] theorem setCreator_Name (r : Room) (c : ClientId) :
    (r.setCreator c).Name = r.Name := rfl

@[simp] theorem setCreator_Private (r : Room) (c : ClientId) :
    (r.setCreator c).Private = r.Private := rfl

@[simp] theorem setCreator_Password (r : Room) (c : ClientId) :
    (r.setCreator c).Password = r.Password := rfl

@[simp] theorem setCreator_MaxClients (r : Room) (c : ClientId) :
    (r.setCreator c).MaxClients = r.MaxClients := rfl

@[simp] theorem setCreator_Creator (r : Room) (c : ClientId) :
    (r.setCreator c).Creator = some c := rfl

@[simp] theorem removeClient_Clients (r : Room) (c : ClientId) :
    (r.removeClient c).Clients = r.Clients.erase c := rfl

@[simp] theorem removeClient_Name (r : Room) (c : ClientId) :
    (r.removeClient c).Name = r.Name := rfl

@[simp] theorem removeClient_Active (r : Room) (c : ClientId) :
    (r.removeClient c).Active = r.Active := rfl

@[simp] theorem removeClient_Private (r : Room) (c : ClientId) :
    (r.removeClient c).Private = r.Private := rfl

@[simp] theorem removeClient_Password (r : Room) (c : ClientId) :
    (r.removeClient c).Password = r.Password := rfl

@[simp] theorem removeClient_MaxClients (r : Room) (c : ClientId) :
    (r.removeClient c).MaxClients = r.MaxClients := rfl

@[simp] theorem removeClient_Creator (r : Room) (c : ClientId) :
    (r.removeClient c).Creator = r.Creator := rfl

@[simp] theorem addClient_fst_Name (r : Room) (c : ClientId) :
    ((r.addClient c).1).Name = r.Name := by
  unfold Room.addClient; split <;> rfl

@[simp] theorem addClient_fst_Active (r : Room) (c : ClientId) :
    ((r.addClient c).1).Active = r.Active := by
  unfold Room.addClient; split <;> rfl

@[simp] theorem addClient_fst_Private (r : Room) (c : ClientId) :
    ((r.addClient c).1).Private = r.Private := by
  unfold Room.addClient; split <;> rfl

@[simp] theorem addClient_fst_Password (r : Room) (c : ClientId) :
    ((r.addClient c).1).Password = r.Password := by
  unfold Room.addClient; split <;> rfl

@[simp] theorem addClient_fst_MaxClients (r : Room) (c : ClientId) :
    ((r.addClient c).1).MaxClients = r.MaxClients := by
  unfold Room.addClient; split <;> rfl

@[simp] theorem addClient_fst_Creator (r : Room) (c : ClientId) :
    ((r.addClient c).1).Creator = r.Creator := by
  unfold Room.addClient; split <;> rfl

theorem addClient_of_lt (r : Room) (c : ClientId)
    (hlt : (r.Clients.length : Int) < r.MaxClients) :
    r.addClient c = ({ r with Clients := r.Clients.insert c }, true) := by
  unfold Room.addClient
  rw [if_neg (not_le.mpr hlt)]

theorem addClient_of_ge (r : Room) (c : ClientId)
    (hge : (r.Clients.length : Int) ≥ r.MaxClients) :
    r.addClient c = (r, false) := by
  unfold Room.addClient
  rw [if_pos hge]

theorem mkServerID_ne_empty (nano : Int) : mkServerID nano ≠ "" := by
  intro hEq
  have hlen := congrArg String.length hEq
  rw [mkServerID, String.length_append] at hlen
  have h7 : "server-".length = 7 := rfl
  have h0 : ("" : String).length = 0 := rfl
  omega

theorem roomWriteLoop_untouched (env : Env) (roomName : String) (m : Message) :
    ∀ (l : List ClientId) (h : Hub) (tr : List ClientId),
      ((Hub.roomWriteLoop env roomName m h tr l).1).roomOf = h.roomOf ∧
      ((Hub.roomWriteLoop env roomName m h tr l).1).clientOf = h.clientOf ∧
      ((Hub.roomWriteLoop env roomName m h tr l).1).ClientRooms = h.ClientRooms ∧
      ((Hub.roomWriteLoop env roomName m h tr l).1).pubs = h.pubs ∧
      ((Hub.roomWriteLoop env roomName m h tr l).1).subs = h.subs ∧
      ((Hub.roomWriteLoop env roomName m h tr l).1).Rooms = h.Rooms ∧
      ((Hub.roomWriteLoop env roomName m h tr l).1).Clients = h.Clients ∧
      ((Hub.roomWriteLoop env roomName m h tr l).1).UserCount = h.UserCount ∧
      ((Hub.roomWriteLoop env roomName m h tr l).1).unregQueue = h.unregQueue ∧
      ((Hub.roomWriteLoop env roomName m h tr l).1).broadcastQueue = h.broadcastQueue ∧
      ((Hub.roomWriteLoop env roomName m h tr l).1).NATSEnabled = h.NATSEnabled ∧
      ((Hub.roomWriteLoop env roomName m h tr l).1).serverID = h.serverID ∧
      ((Hub.roomWriteLoop env roomName m h tr l).1).RepoEnabled = h.RepoEnabled ∧
      ((Hub.roomWriteLoop env roomName m h tr l).1).dbRooms = h.dbRooms ∧
      ((Hub.roomWriteLoop env roomName m h tr l).1).nextRoom = h.nextRoom := by
  intro l
  induction l with
  | nil =>
    intro h tr
    simp [Hub.roomWriteLoop]
  | cons c rest ih =>
    intro h tr
    simp only [Hub.roomWriteLoop]
    split
    · exact ih h tr
    · split
      · exact ih h tr
      · split
        · simp
        · split
          · simpa using ih
              { h with sent := h.sent ++ [(c, "[" ++ roomName ++ "] " ++ m.Content)] } tr
          · exact ih h (tr ++ [c])

theorem broadcastToRoom_untouched (env : Env) (h : Hub) (rid : RoomId) (m : Message) :
    (h.broadcastToRoom env rid m).roomOf = h.roomOf ∧
    (h.broadcastToRoom env rid m).clientOf = h.clientOf ∧
    (h.broadcastToRoom env rid m).ClientRooms = h.ClientRooms ∧
    (h.broadcastToRoom env rid m).subs = h.subs ∧
    (h.broadcastToRoom env rid m).Rooms = h.Rooms ∧
    (h.broadcastToRoom env rid m).Clients = h.Clients ∧
    (h.broadcastToRoom env rid m).UserCount = h.UserCount ∧
    (h.broadcastToRoom env rid m).broadcastQueue = h.broadcastQueue ∧
    (h.broadcastToRoom env rid m).NATSEnabled = h.NATSEnabled ∧
    (h.broadcastToRoom env rid m).serverID = h.serverID ∧
    (h.broadcastToRoom env rid m).RepoEnabled = h.RepoEnabled ∧
    (h.broadcastToRoom env rid m).dbRooms = h.dbRooms ∧
    (h.broadcastToRoom env rid m).nextRoom = h.nextRoom := by
  simp only [Hub.broadcastToRoom]
  by_cases hc : h.NATSEnabled = true ∧ m.MessageID = ""
  · rw [if_pos hc]
    obtain ⟨l1, l2, l3, l4, l5, l6, l7, l8, l9, l10, l11, l12, l13, l14, l15⟩ :=
      roomWriteLoop_untouched env (h.roomOf rid).Name m (h.roomOf rid).Clients
        { h with pubs := h.pubs ++ [(roomSubject (h.roomOf rid).Name, m)] } []
    split <;> exact ⟨l1, l2, l3, l5, l6, l7, l8, l10, l11, l12, l13, l14, l15⟩
  · rw [if_neg hc]
    obtain ⟨l1, l2, l3, l4, l5, l6, l7, l8, l9, l10, l11, l12, l13, l14, l15⟩ :=
      roomWriteLoop_untouched env (h.roomOf rid).Name m (h.roomOf rid).Clients
        { h with pubs := h.pubs ++ ([] : List (String × Message)) } []
    split <;> exact ⟨l1, l2, l3, l5, l6, l7, l8, l10, l11, l12, l13, l14, l15⟩

@[simp] theorem broadcastToRoom_roomOf (env : Env) (h : Hub) (rid : RoomId) (m : Message) :
    (h.broadcastToRoom env rid m).roomOf = h.roomOf :=
  (broadcastToRoom_untouched env h rid m).1

@[simp] theorem broadcastToRoom_clientOf (env : Env) (h : Hub) (rid : RoomId) (m : Message) :
    (h.broadcastToRoom env rid m).clientOf = h.clientOf :=
  (broadcastToRoom_untouched env h rid m).2.1

@[simp] theorem broadcastToRoom_ClientRooms (env : Env) (h : Hub) (rid : RoomId) (m : Message) :
    (h.broadcastToRoom env rid m).ClientRooms = h.ClientRooms :=
  (broadcastToRoom_untouched env h rid m).2.2.1

@[simp] theorem broadcastToRoom_subs (env : Env) (h : Hub) (rid : RoomId) (m : Message) :
    (h.broadcastToRoom env rid m).subs = h.subs :=
  (broadcastToRoom_untouched env h rid m).2.2.2.1

@[simp] theorem broadcastToRoom_Rooms (env : Env) (h : Hub) (rid : RoomId) (m : Message) :
    (h.broadcastToRoom env rid m).Rooms = h.Rooms :=
  (broadcastToRoom_untouched env h rid m).2.2.2.2.1

@[simp] theorem broadcastToRoom_Clients (env : Env) (h : Hub) (rid : RoomId) (m : Message) :
    (h.broadcastToRoom env rid m).Clients = h.Clients :=
  (broadcastToRoom_untouched env h rid m).2.2.2.2.2.1

@[simp] theorem broadcastToRoom_UserCount (env : Env) (h : Hub) (rid : RoomId) (m : Message) :
    (h.broadcastToRoom env rid m).UserCount = h.UserCount :=
  (broadcastToRoom_untouched env h rid m).2.2.2.2.2.2.1

@[simp] theorem broadcastToRoom_broadcastQueue (env : Env) (h : Hub) (rid : RoomId) (m : Message) :
    (h.broadcastToRoom env rid m).broadcastQueue = h.broadcastQueue :=
  (broadcastToRoom_untouched env h rid m).2.2.2.2.2.2.2.1

@[simp] theorem broadcastToRoom_NATSEnabled (env : Env) (h : Hub) (rid : RoomId) (m : Message) :
    (h.broadcastToRoom env rid m).NATSEnabled = h.NATSEnabled :=
  (broadcastToRoom_untouched env h rid m).2.2.2.2.2.2.2.2.1

@[simp] theorem broadcastToRoom_serverID (env : Env) (h : Hub) (rid : RoomId) (m : Message) :
    (h.broadcastToRoom env rid m).serverID = h.serverID :=
  (broadcastToRoom_untouched env h rid m).2.2.2.2.2.2.2.2.2.1

@[simp] theorem broadcastToRoom_RepoEnabled (env : Env) (h : Hub) (rid : RoomId) (m : Message) :
    (h.broadcastToRoom env rid m).RepoEnabled = h.RepoEnabled :=
  (broadcastToRoom_untouched env h rid m).2.2.2.2.2.2.2.2.2.2.1

@[simp] theorem broadcastToRoom_dbRooms (env : Env) (h : Hub) (rid : RoomId) (m : Message) :
    (h.broadcastToRoom env rid m).dbRooms = h.dbRooms :=
  (broadcastToRoom_untouched env h rid m).2.2.2.2.2.2.2.2.2.2.2.1

@[simp] theorem broadcastToRoom_nextRoom (env : Env) (h : Hub) (rid : RoomId) (m : Message) :
    (h.broadcastToRoom env rid m).nextRoom = h.nextRoom :=
  (broadcastToRoom_untouched env h rid m).2.2.2.2.2.2.2.2.2.2.2.2

theorem broadcastToRoom_pubs (env : Env) (h : Hub) (rid : RoomId) (m : Message) :
    (h.broadcastToRoom env rid m).pubs =
      h.pubs ++ (if h.NATSEnabled = true ∧ m.MessageID = "" then
        [(roomSubject (h.roomOf rid).Name, m)] else []) := by
  simp only [Hub.broadcastToRoom]
  by_cases hc : h.NATSEnabled = true ∧ m.MessageID = ""
  · rw [if_pos hc]
    obtain ⟨l1, l2, l3, l4, l5, l6, l7, l8, l9, l10, l11, l12, l13, l14, l15⟩ :=
      roomWriteLoop_untouched env (h.roomOf rid).Name m (h.roomOf rid).Clients
        { h with pubs := h.pubs ++ [(roomSubject (h.roomOf rid).Name, m)] } []
    split <;> exact l4
  · rw [if_neg hc]
    obtain ⟨l1, l2, l3, l4, l5, l6, l7, l8, l9, l10, l11, l12, l13, l14, l15⟩ :=
      roomWriteLoop_untouched env (h.roomOf rid).Name m (h.roomOf rid).Clients
        { h with pubs := h.pubs ++ ([] : List (String × Message)) } []
    split <;> exact l4

theorem leaveRoomInternal_none (env : Env) (h : Hub) (c : ClientId)
    (h0 : (h.clientOf c).CurrentRoom = none) :
    h.leaveRoomInternal env c = h := by
  simp only [Hub.leaveRoomInternal, h0]

theorem leaveRoomInternal_some (env : Env) (h : Hub) (c : ClientId) (rid : RoomId)
    (h0 : (h.clientOf c).CurrentRoom = some rid) :
    (h.leaveRoomInternal env c).roomOf =
        Function.update h.roomOf rid ((h.roomOf rid).removeClient c) ∧
    (h.leaveRoomInternal env c).clientOf =
        Function.update h.clientOf c { h.clientOf c with CurrentRoom := none } ∧
    (h.leaveRoomInternal env c).ClientRooms = Function.update h.ClientRooms c none ∧
    (h.leaveRoomInternal env c).subs = h.subs ∧
    (h.leaveRoomInternal env c).Rooms = h.Rooms ∧
    (h.leaveRoomInternal env c).Clients = h.Clients ∧
    (h.leaveRoomInternal env c).UserCount = h.UserCount ∧
    (h.leaveRoomInternal env c).broadcastQueue = h.broadcastQueue ∧
    (h.leaveRoomInternal env c).NATSEnabled = h.NATSEnabled ∧
    (h.leaveRoomInternal env c).serverID = h.serverID ∧
    (h.leaveRoomInternal env c).RepoEnabled = h.RepoEnabled ∧
    (h.leaveRoomInternal env c).dbRooms = h.dbRooms ∧
    (h.leaveRoomInternal env c).nextRoom = h.nextRoom := by
  simp [Hub.leaveRoomInternal, h0, Hub.updateRoom, Hub.updateClient]

theorem addClient_mem_fst (r : Room) (c : ClientId) (hm : c ∈ r.Clients) :
    ((r.addClient c).1) = r := by
  unfold Room.addClient
  split
  · rfl
  · rw [List.insert_of_mem hm]

theorem joinRoom_ok_noPrev (B : Bcrypt) (env : Env) (h : Hub) (c : ClientId) (rid : RoomId)
    (pw : String)
    (hA : (h.roomOf rid).Active = true)
    (hlt : ((h.roomOf rid).Clients.length : Int) < (h.roomOf rid).MaxClients)
    (hP : ¬((h.roomOf rid).Private = true ∧ B.compare (h.roomOf rid).Password pw = false))
    (hPtr : (h.clientOf c).CurrentRoom = none) :
    (h.joinRoom B env c rid pw).2 = .ok () ∧
    (h.joinRoom B env c rid pw).1.roomOf = Function.update h.roomOf rid
      { h.roomOf rid with
        Creator := if (h.roomOf rid).Creator = none then some c else (h.roomOf rid).Creator
        Clients := (h.roomOf rid).Clients.insert c } ∧
    (h.joinRoom B env c rid pw).1.clientOf = Function.update h.clientOf c
      { h.clientOf c with CurrentRoom := some rid } ∧
    (h.joinRoom B env c rid pw).1.ClientRooms = Function.update h.ClientRooms c (some rid) ∧
    (h.joinRoom B env c rid pw).1.Rooms = h.Rooms ∧
    (h.joinRoom B env c rid pw).1.Clients = h.Clients ∧
    (h.joinRoom B env c rid pw).1.UserCount = h.UserCount ∧
    (h.joinRoom B env c rid pw).1.broadcastQueue = h.broadcastQueue ∧
    (h.joinRoom B env c rid pw).1.subs = h.subs ++
      (if h.NATSEnabled = true then [roomSubject (h.roomOf rid).Name] else []) := by
  by_cases hcr : (h.roomOf rid).Creator = none
  · have hadd := addClient_of_lt ((h.roomOf rid).setCreator c) c (by simpa using hlt)
    simp [Hub.joinRoom, Hub.updateRoom, Hub.updateClient, hcr, hadd, hA, hP,
      leaveRoomInternal_none, hPtr, Function.update_idem, addClient_mem_fst,
      List.mem_insert_self, Function.update_same]
  · have hadd := addClient_of_lt (h.roomOf rid) c hlt
    simp [Hub.joinRoom, Hub.updateRoom, Hub.updateClient, hcr, hadd, hA, hP,
      leaveRoomInternal_none, hPtr, Function.update_idem, addClient_mem_fst,
      List.mem_insert_self, Function.update_same]

theorem leaveRoomInternal_roomOf (env : Env) (h : Hub) (c : ClientId) :
    (h.leaveRoomInternal env c).roomOf =
      match (h.clientOf c).CurrentRoom with
      | none => h.roomOf
      | some rid => Function.update h.roomOf rid ((h.roomOf rid).removeClient c) := by
  rcases hp : (h.clientOf c).CurrentRoom with _ | rid
  · rw [leaveRoomInternal_none env h c hp]
  · exact (leaveRoomInternal_some env h c rid hp).1

theorem leaveRoomInternal_clientOf (env : Env) (h : Hub) (c : ClientId) :
    (h.leaveRoomInternal env c).clientOf =
      match (h.clientOf c).CurrentRoom with
      | none => h.clientOf
      | some _ => Function.update h.clientOf c { h.clientOf c with CurrentRoom := none } := by
  rcases hp : (h.clientOf c).CurrentRoom with _ | rid
  · rw [leaveRoomInternal_none env h c hp]
  · exact (leaveRoomInternal_some env h c rid hp).2.1

theorem leaveRoomInternal_ClientRooms (env : Env) (h : Hub) (c : ClientId) :
    (h.leaveRoomInternal env c).ClientRooms =
      match (h.clientOf c).CurrentRoom with
      | none => h.ClientRooms
      | some _ => Function.update h.ClientRooms c none := by
  rcases hp : (h.clientOf c).CurrentRoom with _ | rid
  · rw [leaveRoomInternal_none env h c hp]
  · exact (leaveRoomInternal_some env h c rid hp).2.2.1

theorem leaveRoomInternal_untouched (env : Env) (h : Hub) (c : ClientId) :
    (h.leaveRoomInternal env c).subs = h.subs ∧
    (h.leaveRoomInternal env c).Rooms = h.Rooms ∧
    (h.leaveRoomInternal env c).Clients = h.Clients ∧
    (h.leaveRoomInternal env c).UserCount = h.UserCount ∧
    (h.leaveRoomInternal env c).broadcastQueue = h.broadcastQueue ∧
    (h.leaveRoomInternal env c).NATSEnabled = h.NATSEnabled ∧
    (h.leaveRoomInternal env c).serverID = h.serverID ∧
    (h.leaveRoomInternal env c).RepoEnabled = h.RepoEnabled ∧
    (h.leaveRoomInternal env c).dbRooms = h.dbRooms ∧
    (h.leaveRoomInternal env c).nextRoom = h.nextRoom := by
  rcases hp : (h.clientOf c).CurrentRoom with _ | rid
  · rw [leaveRoomInternal_none env h c hp]
    simp
  · obtain ⟨_, _, _, l4, l5, l6, l7, l8, l9, l10, l11, l12, l13⟩ :=
      leaveRoomInternal_some env h c rid hp
    exact ⟨l4, l5, l6, l7, l8, l9, l10, l11, l12, l13⟩

theorem length_erase_insert_le (c : ClientId) (s : List ClientId) :
    ((s.insert c).erase c).length ≤ s.length := by
  by_cases hm : c ∈ s
  · rw [List.insert_of_mem hm]
    have := List.length_erase_add_one hm
    omega
  · rw [List.insert_of_not_mem hm, List.erase_cons_head]

theorem addClient_fst_Clients_of_lt (r : Room) (c : ClientId)
    (hlt : (r.Clients.length : Int) < r.MaxClients) :
    ((r.addClient c).1).Clients = r.Clients.insert c := by
  unfold Room.addClient
  rw [if_neg (not_le.mpr hlt)]

theorem joinRoom_ok_prevOther (B : Bcrypt) (env : Env) (h : Hub) (c : ClientId)
    (rid o : RoomId) (pw : String)
    (hA : (h.roomOf rid).Active = true)
    (hlt : ((h.roomOf rid).Clients.length : Int) < (h.roomOf rid).MaxClients)
    (hP : ¬((h.roomOf rid).Private = true ∧ B.compare (h.roomOf rid).Password pw = false))
    (hPtr : (h.clientOf c).CurrentRoom = some o) (hne : o ≠ rid) :
    (h.joinRoom B env c rid pw).2 = .ok () ∧
    (h.joinRoom B env c rid pw).1.roomOf =
      Function.update (Function.update h.roomOf rid
        { h.roomOf rid with
          Creator := if (h.roomOf rid).Creator = none then some c else (h.roomOf rid).Creator
          Clients := (h.roomOf rid).Clients.insert c })
        o ((h.roomOf o).removeClient c) ∧
    (h.joinRoom B env c rid pw).1.clientOf = Function.update h.clientOf c
      { h.clientOf c with CurrentRoom := some rid } ∧
    (h.joinRoom B env c rid pw).1.ClientRooms = Function.update h.ClientRooms c (some rid) ∧
    (h.joinRoom B env c rid pw).1.Rooms = h.Rooms ∧
    (h.joinRoom B env c rid pw).1.Clients = h.Clients ∧
    (h.joinRoom B env c rid pw).1.UserCount = h.UserCount ∧
    (h.joinRoom B env c rid pw).1.broadcastQueue = h.broadcastQueue ∧
    (h.joinRoom B env c rid pw).1.subs = h.subs ++
      (if h.NATSEnabled = true then [roomSubject (h.roomOf rid).Name] else []) := by
  by_cases hcr : (h.roomOf rid).Creator = none
  · have hadd := addClient_of_lt ((h.roomOf rid).setCreator c) c (by simpa using hlt)
    simp [Hub.joinRoom, Hub.updateRoom, Hub.updateClient, hcr, hadd, hA, hP,
      leaveRoomInternal_roomOf, leaveRoomInternal_clientOf, leaveRoomInternal_ClientRooms,
      leaveRoomInternal_untouched, hPtr, Function.update_idem, addClient_mem_fst,
      List.mem_insert_self, Function.update_same, Function.update_noteq hne,
      Function.update_noteq (Ne.symm hne)]
  · have hadd := addClient_of_lt (h.roomOf rid) c hlt
    simp [Hub.joinRoom, Hub.updateRoom, Hub.updateClient, hcr, hadd, hA, hP,
      leaveRoomInternal_roomOf, leaveRoomInternal_clientOf, leaveRoomInternal_ClientRooms,
      leaveRoomInternal_untouched, hPtr, Function.update_idem, addClient_mem_fst,
      List.mem_insert_self, Function.update_same, Function.update_noteq hne,
      Function.update_noteq (Ne.symm hne)]

theorem joinRoom_ok_prevSame (B : Bcrypt) (env : Env) (h : Hub) (c : ClientId)
    (rid : RoomId) (pw : String)
    (hA : (h.roomOf rid).Active = true)
    (hlt : ((h.roomOf rid).Clients.length : Int) < (h.roomOf rid).MaxClients)
    (hP : ¬((h.roomOf rid).Private = true ∧ B.compare (h.roomOf rid).Password pw = false))
    (hPtr : (h.clientOf c).CurrentRoom = some rid) :
    (h.joinRoom B env c rid pw).2 = .ok () ∧
    (h.joinRoom B env c rid pw).1.roomOf = Function.update h.roomOf rid
      { h.roomOf rid with
        Creator := if (h.roomOf rid).Creator = none then some c else (h.roomOf rid).Creator
        Clients := (((h.roomOf rid).Clients.insert c).erase c).insert c } ∧
    (h.joinRoom B env c rid pw).1.clientOf = Function.update h.clientOf c
      { h.clientOf c with CurrentRoom := some rid } ∧
    (h.joinRoom B env c rid pw).1.ClientRooms = Function.update h.ClientRooms c (some rid) ∧
    (h.joinRoom B env c rid pw).1.Rooms = h.Rooms ∧
    (h.joinRoom B env c rid pw).1.Clients = h.Clients ∧
    (h.joinRoom B env c rid pw).1.UserCount = h.UserCount ∧
    (h.joinRoom B env c rid pw).1.broadcastQueue = h.broadcastQueue ∧
    (h.joinRoom B env c rid pw).1.subs = h.subs ++
      (if h.NATSEnabled = true then [roomSubject (h.roomOf rid).Name] else []) := by
  have hlen2 : ((((h.roomOf rid).Clients.insert c).erase c).length : Int) <
      (h.roomOf rid).MaxClients := by
    have := length_erase_insert_le c (h.roomOf rid).Clients
    have h2 : ((((h.roomOf rid).Clients.insert c).erase c).length : Int) ≤
        ((h.roomOf rid).Clients.length : Int) := by exact_mod_cast this
    omega
  by_cases hcr : (h.roomOf rid).Creator = none
  · have hadd := addClient_of_lt ((h.roomOf rid).setCreator c) c (by simpa using hlt)
    have hadd2 := addClient_of_lt
      { Name := (h.roomOf rid).Name
        Clients := ((h.roomOf rid).Clients.insert c).erase c
        Private := (h.roomOf rid).Private
        Password := (h.roomOf rid).Password
        MaxClients := (h.roomOf rid).MaxClients
        Active := true
        Creator := some c } c (by simpa using hlen2)
    simp [Hub.joinRoom, Hub.updateRoom, Hub.updateClient, hcr, hadd, hadd2, hA, hP,
      Room.removeClient, leaveRoomInternal_roomOf, leaveRoomInternal_clientOf,
      leaveRoomInternal_ClientRooms, leaveRoomInternal_untouched, hPtr,
      Function.update_idem, Function.update_same]
  · have hadd := addClient_of_lt (h.roomOf rid) c hlt
    have hadd2 := addClient_of_lt
      { Name := (h.roomOf rid).Name
        Clients := ((h.roomOf rid).Clients.insert c).erase c
        Private := (h.roomOf rid).Private
        Password := (h.roomOf rid).Password
        MaxClients := (h.roomOf rid).MaxClients
        Active := true
        Creator := (h.roomOf rid).Creator } c (by simpa using hlen2)
    simp [Hub.joinRoom, Hub.updateRoom, Hub.updateClient, hcr, hadd, hadd2, hA, hP,
      Room.removeClient, leaveRoomInternal_roomOf, leaveRoomInternal_clientOf,
      leaveRoomInternal_ClientRooms, leaveRoomInternal_untouched, hPtr,
      Function.update_idem, Function.update_same]

theorem globalWriteLoop_untouched (env : Env) (m : Message) :
    ∀ (l : List ClientId) (h : Hub) (tr : List ClientId),
      ((Hub.globalWriteLoop env m h tr l).1).pubs = h.pubs ∧
      ((Hub.globalWriteLoop env m h tr l).1).roomOf = h.roomOf ∧
      ((Hub.globalWriteLoop env m h tr l).1).clientOf = h.clientOf ∧
      ((Hub.globalWriteLoop env m h tr l).1).ClientRooms = h.ClientRooms ∧
      ((Hub.globalWriteLoop env m h tr l).1).subs = h.subs ∧
      ((Hub.globalWriteLoop env m h tr l).1).Rooms = h.Rooms ∧
      ((Hub.globalWriteLoop env m h tr l).1).Clients = h.Clients ∧
      ((Hub.globalWriteLoop env m h tr l).1).UserCount = h.UserCount := by
  intro l
  induction l with
  | nil =>
    intro h tr
    simp [Hub.globalWriteLoop]
  | cons c rest ih =>
    intro h tr
    simp only [Hub.globalWriteLoop]
    split
    · exact ih h tr
    · split
      · exact ih h tr
      · split
        · simpa using ih { h with sent := h.sent ++ [(c, m.Content)] } tr
        · exact ih h (tr ++ [c])

theorem removeFailed_untouched :
    ∀ (l : List ClientId) (h : Hub),
      (Hub.removeFailed h l).pubs = h.pubs ∧
      (Hub.removeFailed h l).roomOf = h.roomOf ∧
      (Hub.removeFailed h l).clientOf = h.clientOf ∧
      (Hub.removeFailed h l).ClientRooms = h.ClientRooms ∧
      (Hub.removeFailed h l).subs = h.subs := by
  intro l
  induction l with
  | nil =>
    intro h
    simp [Hub.removeFailed]
  | cons c rest ih =>
    intro h
    simp only [Hub.removeFailed]
    split
    · simpa using ih { h with Clients := h.Clients.erase c, UserCount := h.UserCount - 1 }
    · exact ih h

/-- Claim C9, counterexample: a name of 26 two-byte characters has between 1
and 50 characters, yet CreateRoom rejects it with InvalidName because Go's
len counts UTF-8 bytes (52 here). -/
theorem C9_counterexample :
    alphaName.length = 26 ∧ 1 ≤ alphaName.length ∧ alphaName.length ≤ 50 ∧
    (c10Hub0.createRoom toyBcrypt alphaName false "" 100).2 = .error .invalidName := by
  decide

/-- Claim C9 (amended): CreateRoom returns InvalidName exactly when the name
is empty or its UTF-8 byte length (Go len) exceeds 50; no other criterion on
the name's shape is applied (the separate existence checks return
AlreadyExists, never InvalidName). -/
theorem C9_createRoom_name_validation (B : Bcrypt) (h : Hub) (name : String)
    (priv : Bool) (pw : String) (mc : Int) :
    (h.createRoom B name priv pw mc).2 = .error .invalidName ↔
      (name = "" ∨ name.utf8ByteSize > 50) := by
  unfold Hub.createRoom
  split
  · simp_all
  · split
    · simp_all
    · split
      · simp_all
      · simp_all

/-- Claim C7, counterexample: the creator (session 1) deletes room "alpha"
while session 2 is a member; the deletion succeeds and the room leaves the
registry, but session 2's current-room pointer, its client-to-room index
entry, and the room's member set are all left pointing at the deleted room,
contradicting the claim that they are cleared. -/
theorem C7_counterexample :
    natsDelete.2 = .ok () ∧
    natsDelete.1.Rooms "alpha" = none ∧
    natsDelete.1.ClientRooms 2 = some 0 ∧
    (natsDelete.1.clientOf 2).CurrentRoom = some 0 ∧
    (2 : ClientId) ∈ (natsDelete.1.roomOf 0).Clients := by decide

/-- Claim C7 (amended): a successful DeleteRoom removes the room from the
registry and queues one global deletion notification on the Broadcast
channel, but leaves every session's current-room pointer, the client-to-room
index, and all member sets untouched. -/
theorem C7_deleteRoom_behavior (env : Env) (h : Hub) (c : ClientId) (name : String)
    (rid : RoomId) (hreg : h.Rooms name = some rid)
    (hcr : (h.roomOf rid).Creator = some c) :
    (h.deleteRoom env c name).2 = .ok () ∧
    (h.deleteRoom env c name).1.Rooms name = none ∧
    (∀ n, n ≠ name → (h.deleteRoom env c name).1.Rooms n = h.Rooms n) ∧
    (h.deleteRoom env c name).1.broadcastQueue = h.broadcastQueue ++
      [{ MessageID := ""
         Content := "[" ++ env.nowTimestamp ++ "] Room '" ++ name ++
           "' has been deleted by " ++ (h.clientOf c).Name
         Sender := none, Typ := MsgTypeDeleteRoom, Room := none, ServerID := "" }] ∧
    (h.deleteRoom env c name).1.ClientRooms = h.ClientRooms ∧
    (h.deleteRoom env c name).1.clientOf = h.clientOf ∧
    (h.deleteRoom env c name).1.roomOf = h.roomOf := by
  simp only [Hub.deleteRoom, hreg]
  have hic : (h.roomOf rid).isCreator c = true := by simp [Room.isCreator, hcr]
  simp [hic, Function.update_same]
  intro n hn
  simp [Function.update_noteq hn]

/-- Claim C7 witness: the amended theorem applied to the concrete deletion. -/
theorem C7_witness :
    (natsJoinB.1.deleteRoom demoEnv 1 "alpha").2 = .ok () ∧
    (natsJoinB.1.deleteRoom demoEnv 1 "alpha").1.Rooms "alpha" = none ∧
    (natsJoinB.1.deleteRoom demoEnv 1 "alpha").1.ClientRooms = natsJoinB.1.ClientRooms := by
  have H := C7_deleteRoom_behavior demoEnv natsJoinB.1 1 "alpha" 0 (by decide) (by decide)
  exact ⟨H.1, H.2.1, H.2.2.2.2.1⟩

theorem registered_mono (h : Hub) (e c : ClientId)
    (hr : (h.clientOf c).Registered = true) :
    ((h.registerStep e).clientOf c).Registered = true := by
  simp only [Hub.registerStep]
  split
  · exact hr
  · by_cases hec : c = e
    · subst hec
      simp [Hub.updateClient, Function.update_same]
    · simp [Hub.updateClient, Function.update_noteq hec, hr]

theorem resolveCount_of_true (h : Hub) (c : ClientId) (evs : List ClientId)
    (hr : (h.clientOf c).Registered = true) :
    Hub.resolveCount h c evs = 0 := by
  induction evs generalizing h with
  | nil => rfl
  | cons e rest ih =>
    simp only [Hub.resolveCount]
    rw [ih (h.registerStep e) (registered_mono h e c hr)]
    simp [hr]

theorem resolveCount_le_one (h : Hub) (c : ClientId) (evs : List ClientId) :
    Hub.resolveCount h c evs ≤ 1 := by
  induction evs generalizing h with
  | nil => simp [Hub.resolveCount]
  | cons e rest ih =>
    simp only [Hub.resolveCount]
    by_cases htr : (h.clientOf c).Registered = false ∧
        ((h.registerStep e).clientOf c).Registered = true
    · rw [resolveCount_of_true (h.registerStep e) c rest htr.2]
      simp [htr]
    · simp only [htr, if_false]
      simpa using ih (h.registerStep e)

/-- Claim C8, counterexample: processing a second Register event for a
session that is already in the session registry leaves the registry unchanged
but increments the user count again, so it is not a no-op as the claim
states. -/
theorem C8_counterexample :
    (5 : ClientId) ∈ regOnce.Clients ∧
    regTwice.Clients = regOnce.Clients ∧
    regOnce.UserCount = 1 ∧
    regTwice.UserCount = 2 := by decide

/-- Claim C8 (amended): the Registered latch of a session resolves at most
once across any sequence of Register events (sync.Once); a Register event for
an already-registered session leaves the session registry and the session
state unchanged, but still increments the user count by one. -/
theorem C8_register_one_shot (h : Hub) (c : ClientId) (evs : List ClientId)
    (hmem : c ∈ h.Clients) (hdone : (h.clientOf c).RegisteredOnce = true) :
    Hub.resolveCount h c evs ≤ 1 ∧
    (h.registerStep c).Clients = h.Clients ∧
    (h.registerStep c).UserCount = h.UserCount + 1 ∧
    (h.registerStep c).clientOf = h.clientOf := by
  refine ⟨resolveCount_le_one h c evs, ?_, ?_, ?_⟩
  · simp [Hub.registerStep, List.insert_of_mem hmem, hdone]
  · simp [Hub.registerStep, hdone]
  · simp [Hub.registerStep, List.insert_of_mem hmem, hdone]

/-- Claim C8 witness: the amended theorem applied to the concrete
re-registration of session 5. -/
theorem C8_witness :
    Hub.resolveCount regOnce 5 [5, 5, 5] ≤ 1 ∧
    (regOnce.registerStep 5).Clients = regOnce.Clients ∧
    (regOnce.registerStep 5).UserCount = regOnce.UserCount + 1 := by
  have H := C8_register_one_shot regOnce 5 [5, 5, 5] (by decide) (by decide)
  exact ⟨H.1, H.2.1, H.2.2.1⟩

/-- Claim C5: an envelope arriving from the bus whose origin server id equals
this server's (always non-empty, clock-generated) id is dropped by both the
chat.global handler and the per-room handler, with no local delivery and no
state change at all. -/
theorem C5_no_loopback (env : Env) (h : Hub) (rid : RoomId) (m : Message) (nano : Int)
    (hid : h.serverID = mkServerID nano) (hm : m.ServerID = h.serverID) :
    h.globalChatHandler m = h ∧ h.roomSubHandler env rid m = h := by
  have hne : m.ServerID ≠ "" := by
    rw [hm, hid]
    exact mkServerID_ne_empty nano
  constructor
  · unfold Hub.globalChatHandler
    rw [if_pos ⟨hne, hm⟩]
  · unfold Hub.roomSubHandler
    rw [if_pos ⟨hne, hm⟩]

/-- Claim C5 witness: a concrete bus envelope carrying this server's own id
is dropped by both handlers. -/
theorem C5_witness :
    c5Hub.globalChatHandler c5Msg = c5Hub ∧
    c5Hub.roomSubHandler demoEnv 0 c5Msg = c5Hub :=
  C5_no_loopback demoEnv c5Hub 0 c5Msg 3 rfl rfl

theorem broadcastStep_pubs_room (env : Env) (h : Hub) (m : Message) (rid : RoomId)
    (hr : m.Room = some rid) :
    (h.broadcastStep env m).pubs = h.pubs ++
      (if h.NATSEnabled = true ∧ m.MessageID = "" then
        [(roomSubject (h.roomOf rid).Name, m)] else []) := by
  simp only [Hub.broadcastStep, hr]
  rw [broadcastToRoom_pubs]
  simp [hr]

theorem broadcastStep_pubs_global (env : Env) (h : Hub) (m : Message)
    (hr : m.Room = none) :
    (h.broadcastStep env m).pubs = h.pubs ++
      (if h.NATSEnabled = true ∧ m.MessageID = "" then [(SubjectGlobalChat, m)] else []) := by
  simp only [Hub.broadcastStep, hr]
  obtain ⟨g1, g2, g3, g4, g5, g6, g7, g8⟩ :=
    globalWriteLoop_untouched env m
      ({ h with pubs := h.pubs ++
          (if h.NATSEnabled = true ∧ True ∧ m.MessageID = "" then
            [(SubjectGlobalChat, m)] else []) } : Hub).Clients
      { h with pubs := h.pubs ++
          (if h.NATSEnabled = true ∧ True ∧ m.MessageID = "" then
            [(SubjectGlobalChat, m)] else []) } []
  simp_all [removeFailed_untouched]

/-- Claim C4: BroadcastToRoom publishes to the room's bus subject exactly
when the bus is enabled and the envelope's message id is empty; the event
loop's Broadcast handler publishes to chat.global exactly when additionally
the envelope has no target room; consequently an envelope carrying a
non-empty message id is never republished by either. -/
theorem C4_no_republish (env : Env) (h : Hub) (rid : RoomId) (m : Message) :
    ((h.broadcastToRoom env rid m).pubs = h.pubs ++
      (if h.NATSEnabled = true ∧ m.MessageID = "" then
        [(roomSubject (h.roomOf rid).Name, m)] else [])) ∧
    (m.MessageID ≠ "" → (h.broadcastToRoom env rid m).pubs = h.pubs) ∧
    (m.Room = none → (h.broadcastStep env m).pubs = h.pubs ++
      (if h.NATSEnabled = true ∧ m.MessageID = "" then [(SubjectGlobalChat, m)] else [])) ∧
    (m.MessageID ≠ "" → (h.broadcastStep env m).pubs = h.pubs) := by
  refine ⟨broadcastToRoom_pubs env h rid m, ?_, broadcastStep_pubs_global env h m, ?_⟩
  · intro hne
    rw [broadcastToRoom_pubs]
    simp [hne]
  · intro hne
    rcases hr : m.Room with _ | r
    · rw [broadcastStep_pubs_global env h m hr]
      simp [hne]
    · rw [broadcastStep_pubs_room env h m r hr]
      simp [hne]

/-- Claim C4 witness: a concrete envelope with the non-empty message id
"17-chat" is not republished by BroadcastToRoom nor by the Broadcast
handler. -/
theorem C4_witness :
    (natsHub1.broadcastToRoom demoEnv 0 c5Msg).pubs = natsHub1.pubs ∧
    (natsHub1.broadcastStep demoEnv c5Msg).pubs = natsHub1.pubs := by
  have H := C4_no_republish demoEnv natsHub1 0 c5Msg
  exact ⟨H.2.1 (by decide), H.2.2.2 (by decide)⟩

theorem joinRoom_inactive (B : Bcrypt) (env : Env) (h : Hub) (c : ClientId) (rid : RoomId)
    (pw : String) (hA : (h.roomOf rid).Active = false) :
    (h.joinRoom B env c rid pw).2 = .error .roomInactive ∧
    (h.joinRoom B env c rid pw).1 =
      (if (h.roomOf rid).Creator = none then
        h.updateRoom rid (fun r => r.setCreator c) else h) := by
  simp only [Hub.joinRoom, Hub.updateRoom]
  by_cases hcr : (h.roomOf rid).Creator = none
  · simp [hcr, hA]
  · simp [hcr, hA]

theorem joinRoom_full (B : Bcrypt) (env : Env) (h : Hub) (c : ClientId) (rid : RoomId)
    (pw : String) (hA : (h.roomOf rid).Active = true)
    (hge : ((h.roomOf rid).Clients.length : Int) ≥ (h.roomOf rid).MaxClients) :
    (h.joinRoom B env c rid pw).2 = .error .roomFull ∧
    (h.joinRoom B env c rid pw).1 =
      (if (h.roomOf rid).Creator = none then
        h.updateRoom rid (fun r => r.setCreator c) else h) := by
  simp only [Hub.joinRoom, Hub.updateRoom]
  by_cases hcr : (h.roomOf rid).Creator = none
  · have hadd := addClient_of_ge ((h.roomOf rid).setCreator c) c (by simpa using hge)
    simp [hcr, hA, hadd, Function.update_idem]
  · have hadd := addClient_of_ge (h.roomOf rid) c hge
    simp [hcr, hA, hadd, Function.update_idem]

theorem joinRoom_badpw (B : Bcrypt) (env : Env) (h : Hub) (c : ClientId) (rid : RoomId)
    (pw : String) (hA : (h.roomOf rid).Active = true)
    (hlt : ((h.roomOf rid).Clients.length : Int) < (h.roomOf rid).MaxClients)
    (hP : (h.roomOf rid).Private = true)
    (hC : B.compare (h.roomOf rid).Password pw = false) :
    (h.joinRoom B env c rid pw).2 = .error .invalidPassword ∧
    ((h.joinRoom B env c rid pw).1.roomOf rid).Clients =
      ((h.roomOf rid).Clients.insert c).erase c ∧
    ((h.joinRoom B env c rid pw).1.roomOf rid).Creator =
      (if (h.roomOf rid).Creator = none then some c else (h.roomOf rid).Creator) ∧
    (∀ r', r' ≠ rid → (h.joinRoom B env c rid pw).1.roomOf r' = h.roomOf r') ∧
    (h.joinRoom B env c rid pw).1.ClientRooms = h.ClientRooms ∧
    (h.joinRoom B env c rid pw).1.clientOf = h.clientOf ∧
    (h.joinRoom B env c rid pw).1.subs = h.subs ∧
    (h.joinRoom B env c rid pw).1.Rooms = h.Rooms := by
  simp only [Hub.joinRoom, Hub.updateRoom]
  by_cases hcr : (h.roomOf rid).Creator = none
  · have hadd := addClient_of_lt ((h.roomOf rid).setCreator c) c (by simpa using hlt)
    simp [hcr, hA, hadd, hP, hC, Room.removeClient, Function.update_idem, Function.update_same]
    intro r' hr'
    simp [Function.update_noteq hr']
  · have hadd := addClient_of_lt (h.roomOf rid) c hlt
    simp [hcr, hA, hadd, hP, hC, Room.removeClient, Function.update_idem, Function.update_same]
    intro r' hr'
    simp [Function.update_noteq hr']

theorem joinRoom_subs_cases (B : Bcrypt) (env : Env) (h : Hub) (c : ClientId)
    (rid : RoomId) (pw : String) :
    ((h.joinRoom B env c rid pw).2 = .ok () →
      (h.joinRoom B env c rid pw).1.subs = h.subs ++
        (if h.NATSEnabled = true then [roomSubject (h.roomOf rid).Name] else [])) ∧
    (∀ e, (h.joinRoom B env c rid pw).2 = .error e →
      (h.joinRoom B env c rid pw).1.subs = h.subs) := by
  by_cases hA : (h.roomOf rid).Active = false
  · obtain ⟨e1, e2⟩ := joinRoom_inactive B env h c rid pw hA
    constructor
    · intro hok
      rw [e1] at hok
      exact absurd hok (by simp)
    · intro e _
      rw [e2]
      split <;> simp [Hub.updateRoom]
  · have hA' : (h.roomOf rid).Active = true := by
      revert hA
      cases (h.roomOf rid).Active <;> simp
    by_cases hge : ((h.roomOf rid).Clients.length : Int) ≥ (h.roomOf rid).MaxClients
    · obtain ⟨e1, e2⟩ := joinRoom_full B env h c rid pw hA' hge
      constructor
      · intro hok
        rw [e1] at hok
        exact absurd hok (by simp)
      · intro e _
        rw [e2]
        split <;> simp [Hub.updateRoom]
    · have hlt : ((h.roomOf rid).Clients.length : Int) < (h.roomOf rid).MaxClients :=
        lt_of_not_le hge
      by_cases hbad : (h.roomOf rid).Private = true ∧
          B.compare (h.roomOf rid).Password pw = false
      · obtain ⟨e1, e2, e3, e4, e5, e6, e7, e8⟩ :=
          joinRoom_badpw B env h c rid pw hA' hlt hbad.1 hbad.2
        constructor
        · intro hok
          rw [e1] at hok
          exact absurd hok (by simp)
        · intro e _
          exact e7
      · rcases hp : (h.clientOf c).CurrentRoom with _ | o
        · obtain ⟨e1, _, _, _, _, _, _, _, e9⟩ :=
            joinRoom_ok_noPrev B env h c rid pw hA' hlt hbad hp
          refine ⟨fun _ => e9, fun e he => ?_⟩
          rw [e1] at he
          exact absurd he (by simp)
        · by_cases ho : o = rid
          · subst ho
            obtain ⟨e1, _, _, _, _, _, _, _, e9⟩ :=
              joinRoom_ok_prevSame B env h c o pw hA' hlt hbad hp
            refine ⟨fun _ => e9, fun e he => ?_⟩
            rw [e1] at he
            exact absurd he (by simp)
          · obtain ⟨e1, _, _, _, _, _, _, _, e9⟩ :=
              joinRoom_ok_prevOther B env h c rid o pw hA' hlt hbad hp ho
            refine ⟨fun _ => e9, fun e he => ?_⟩
            rw [e1] at he
            exact absurd he (by simp)

/-- Claim C3, counterexample: with the bus enabled, two successful joins of
the same room "alpha" leave this server holding two subscriptions to
chat.room.alpha — JoinRoom performs no already-subscribed check, so the
server does not hold at most one subscription per room subject. -/
theorem C3_counterexample :
    natsJoinA.2 = .ok () ∧ natsJoinB.2 = .ok () ∧
    natsJoinB.1.subs = [roomSubject "alpha", roomSubject "alpha"] ∧
    ¬(natsJoinB.1.subs.count (roomSubject "alpha") ≤ 1) := by decide

/-- Claim C3 (amended): when the bus is enabled, every successful JoinRoom
unconditionally appends one more subscription to the room's bus subject
(there is no already-subscribed check), and a failed JoinRoom adds none; so
the number of subscriptions to a room's subject equals the number of
successful local joins of that room, not at most one. -/
theorem C3_subscribe_unconditional (B : Bcrypt) (env : Env) (h : Hub) (c : ClientId)
    (rid : RoomId) (pw : String) (hn : h.NATSEnabled = true) :
    ((h.joinRoom B env c rid pw).2 = .ok () →
      (h.joinRoom B env c rid pw).1.subs = h.subs ++ [roomSubject (h.roomOf rid).Name]) ∧
    (∀ e, (h.joinRoom B env c rid pw).2 = .error e →
      (h.joinRoom B env c rid pw).1.subs = h.subs) := by
  obtain ⟨hok, herr⟩ := joinRoom_subs_cases B env h c rid pw
  refine ⟨fun hk => ?_, herr⟩
  rw [hok hk, hn]
  simp

/-- Claim C3 witness: the amended theorem applied to the first concrete join
of "alpha". -/
theorem C3_witness :
    natsJoinA.1.subs = natsHub1.subs ++ [roomSubject (natsHub1.roomOf 0).Name] :=
  (C3_subscribe_unconditional toyBcrypt demoEnv natsHub1 1 0 "" (by decide)).1 (by decide)

/-- Claim C2: the code contradicts the claim.  CreateRoom writes the bcrypt
hash only to the database row; the in-memory room keeps the plaintext
password, while JoinRoom's VerifyPassword treats the stored string as a
bcrypt hash.  For any password that is not itself a bcrypt-formatted string,
a JoinRoom on the freshly created private room with the SAME, correct
password therefore fails with InvalidPassword. -/
theorem C2_password_hash_bug (B : Bcrypt) (env : Env) (h : Hub) (c : ClientId)
    (name pw : String) (mc : Int)
    (hname : ¬(name = "" ∨ name.utf8ByteSize > 50))
    (hrepo : h.RepoEnabled = true)
    (hdb : (dbFindRoom h.dbRooms name).isSome = false)
    (hmem : (h.Rooms name).isSome = false)
    (hpw : pw ≠ "")
    (hfmt : B.validFormat pw = false)
    (hmc : 0 < mc) :
    (h.createRoom B name true pw mc).2 = .ok h.nextRoom ∧
    ((h.createRoom B name true pw mc).1.roomOf h.nextRoom).Password = pw ∧
    (h.createRoom B name true pw mc).1.dbRooms = h.dbRooms ++
      [{ name := name, priv := true, passwordHash := some (B.generate pw) }] ∧
    ((h.createRoom B name true pw mc).1.joinRoom B env c h.nextRoom pw).2 =
      .error .invalidPassword := by
  have hcreate : (h.createRoom B name true pw mc).2 = .ok h.nextRoom ∧
      (h.createRoom B name true pw mc).1.roomOf h.nextRoom = Room.new name true pw mc ∧
      (h.createRoom B name true pw mc).1.dbRooms = h.dbRooms ++
        [{ name := name, priv := true, passwordHash := some (B.generate pw) }] := by
    unfold Hub.createRoom
    rw [if_neg hname]
    rw [if_neg (by simp [hrepo, hdb])]
    rw [if_neg (by simp [hmem])]
    refine ⟨rfl, ?_, by simp [hrepo, hpw]⟩
    simp [Function.update_same]
  refine ⟨hcreate.1, by rw [hcreate.2.1]; rfl, hcreate.2.2, ?_⟩
  have hbad := joinRoom_badpw B env (h.createRoom B name true pw mc).1 c h.nextRoom pw
    (by rw [hcreate.2.1]; rfl)
    (by rw [hcreate.2.1]; simpa using hmc)
    (by rw [hcreate.2.1]; rfl)
    (by rw [hcreate.2.1]; exact B.compare_invalid pw pw hfmt)
  exact hbad.1

/-- Claim C2 witness: on the concrete scenario with the toy bcrypt oracle,
creating private room "beta" with password "sekret" stores the plaintext in
the in-memory room and the hash in the database, and joining with the correct
password "sekret" is rejected. -/
theorem C2_witness :
    c2Create.2 = .ok 0 ∧
    (c2Create.1.roomOf 0).Password = "sekret" ∧
    c2Join.2 = .error .invalidPassword := by
  have H := C2_password_hash_bug toyBcrypt demoEnv c2Hub0 1 "beta" "sekret" 10
    (by decide) (by decide) (by decide) (by decide) (by decide) (by decide) (by decide)
  exact ⟨H.1, H.2.1, H.2.2.2⟩

/-- Claim C10: when JoinRoom runs on a room with no creator, the calling
session is installed as creator before any validation; on every error return
(RoomInactive, RoomFull, InvalidPassword) the assignment persists while the
member set is unchanged and the caller is not a member; afterwards only that
session can delete the room (DeleteRoom by anyone else returns NotCreator,
by the claimant it succeeds). -/
theorem C10_creator_claim_on_failed_join (B : Bcrypt) (env : Env) (h : Hub)
    (c d : ClientId) (rid : RoomId) (pw : String) (name : String)
    (hcr : (h.roomOf rid).Creator = none)
    (hnm : c ∉ (h.roomOf rid).Clients) :
    (∀ e, (h.joinRoom B env c rid pw).2 = .error e →
      ((h.joinRoom B env c rid pw).1.roomOf rid).Creator = some c ∧
      ((h.joinRoom B env c rid pw).1.roomOf rid).Clients = (h.roomOf rid).Clients ∧
      c ∉ ((h.joinRoom B env c rid pw).1.roomOf rid).Clients) ∧
    (∀ e, (h.joinRoom B env c rid pw).2 = .error e →
      h.Rooms name = some rid →
      ((h.joinRoom B env c rid pw).1.deleteRoom env d name).2 =
        (if d = c then .ok () else .error .notCreator)) := by
  have hdel : ∀ h' : Hub, h'.Rooms name = some rid →
      (h'.roomOf rid).Creator = some c →
      (h'.deleteRoom env d name).2 = (if d = c then .ok () else .error .notCreator) := by
    intro h' hreg hcr'
    simp only [Hub.deleteRoom, hreg]
    by_cases hdc : d = c
    · subst hdc
      have hic : (h'.roomOf rid).isCreator d = true := by simp [Room.isCreator, hcr']
      simp [hic]
    · have hic : (h'.roomOf rid).isCreator d = false := by
        simp only [Room.isCreator, hcr', decide_eq_false_iff_not]
        intro hcd
        exact hdc (Option.some.inj hcd).symm
      simp [hic, hdc]
  have main : ∀ e, (h.joinRoom B env c rid pw).2 = .error e →
      ((h.joinRoom B env c rid pw).1.roomOf rid).Creator = some c ∧
      ((h.joinRoom B env c rid pw).1.roomOf rid).Clients = (h.roomOf rid).Clients ∧
      (h.joinRoom B env c rid pw).1.Rooms = h.Rooms := by
    intro e he
    by_cases hA : (h.roomOf rid).Active = false
    · obtain ⟨_, e2⟩ := joinRoom_inactive B env h c rid pw hA
      rw [e2, if_pos hcr]
      simp [Hub.updateRoom, Function.update_same]
    · have hA' : (h.roomOf rid).Active = true := by
        revert hA
        cases (h.roomOf rid).Active <;> simp
      by_cases hge : ((h.roomOf rid).Clients.length : Int) ≥ (h.roomOf rid).MaxClients
      · obtain ⟨_, e2⟩ := joinRoom_full B env h c rid pw hA' hge
        rw [e2, if_pos hcr]
        simp [Hub.updateRoom, Function.update_same]
      · have hlt : ((h.roomOf rid).Clients.length : Int) < (h.roomOf rid).MaxClients :=
          lt_of_not_le hge
        by_cases hbad : (h.roomOf rid).Private = true ∧
            B.compare (h.roomOf rid).Password pw = false
        · obtain ⟨e1, e2, e3, e4, e5, e6, e7, e8⟩ :=
            joinRoom_badpw B env h c rid pw hA' hlt hbad.1 hbad.2
          refine ⟨by rw [e3, if_pos hcr], ?_, e8⟩
          rw [e2, List.insert_of_not_mem hnm, List.erase_cons_head]
        · exfalso
          rcases hp : (h.clientOf c).CurrentRoom with _ | o
          · obtain ⟨e1, _⟩ := joinRoom_ok_noPrev B env h c rid pw hA' hlt hbad hp
            rw [e1] at he
            exact absurd he (by simp)
          · by_cases ho : o = rid
            · subst ho
              obtain ⟨e1, _⟩ := joinRoom_ok_prevSame B env h c o pw hA' hlt hbad hp
              rw [e1] at he
              exact absurd he (by simp)
            · obtain ⟨e1, _⟩ := joinRoom_ok_prevOther B env h c rid o pw hA' hlt hbad hp ho
              rw [e1] at he
              exact absurd he (by simp)
  refine ⟨fun e he => ?_, fun e he hreg => ?_⟩
  · obtain ⟨m1, m2, _⟩ := main e he
    refine ⟨m1, m2, by rw [m2]; exact hnm⟩
  · obtain ⟨m1, _, m3⟩ := main e he
    exact hdel _ (by rw [m3]; exact hreg) m1

/-- Claim C10 witness: session 1's join of the zero-capacity room "gamma"
fails with RoomFull, yet session 1 becomes the creator and gains the
exclusive right to delete the room. -/
theorem C10_witness :
    ((c10Join.1.roomOf 0).Creator = some 1) ∧
    (1 : ClientId) ∉ (c10Join.1.roomOf 0).Clients ∧
    (c10Join.1.deleteRoom demoEnv 2 "gamma").2 = .error .notCreator ∧
    (c10Join.1.deleteRoom demoEnv 1 "gamma").2 = .ok () := by
  have H := C10_creator_claim_on_failed_join toyBcrypt demoEnv c10Hub1 1 2 0 "" "gamma"
    (by decide) (by decide)
  have H1 := C10_creator_claim_on_failed_join toyBcrypt demoEnv c10Hub1 1 1 0 "" "gamma"
    (by decide) (by decide)
  refine ⟨(H.1 .roomFull (by decide)).1, (H.1 .roomFull (by decide)).2.2, ?_, ?_⟩
  · have := H.2 .roomFull (by decide) (by decide)
    simpa using this
  · have := H1.2 .roomFull (by decide) (by decide)
    simpa using this

/-- Claim C6, counterexample: session 1 is a member of the private room
"beta" (joined with the correct password); calling JoinRoom again with a
wrong password returns InvalidPassword but the rollback REMOVES the session
from the member set, so the member set is not left as it was. -/
theorem C6_counterexample :
    demoJoin1.2 = .ok () ∧
    (demoJoin1.1.roomOf 0).Private = true ∧
    (1 : ClientId) ∈ (demoJoin1.1.roomOf 0).Clients ∧
    demoJoin2.2 = .error .invalidPassword ∧
    (1 : ClientId) ∉ (demoJoin2.1.roomOf 0).Clients := by decide

/-- Claim C6 (amended): for a session that is NOT already a member of the
(active, non-full) private room, JoinRoom with a non-matching password
returns InvalidPassword and leaves the member set, all other rooms, and the
client-to-room index unchanged; for a session already a member, the rollback
removes it from the member set (see the counterexample). -/
theorem C6_invalid_password_rollback (B : Bcrypt) (env : Env) (h : Hub) (c : ClientId)
    (rid : RoomId) (pw : String)
    (hA : (h.roomOf rid).Active = true)
    (hlt : ((h.roomOf rid).Clients.length : Int) < (h.roomOf rid).MaxClients)
    (hP : (h.roomOf rid).Private = true)
    (hC : B.compare (h.roomOf rid).Password pw = false)
    (hnm : c ∉ (h.roomOf rid).Clients) :
    (h.joinRoom B env c rid pw).2 = .error .invalidPassword ∧
    ((h.joinRoom B env c rid pw).1.roomOf rid).Clients = (h.roomOf rid).Clients ∧
    (∀ r', r' ≠ rid → (h.joinRoom B env c rid pw).1.roomOf r' = h.roomOf r') ∧
    (h.joinRoom B env c rid pw).1.ClientRooms = h.ClientRooms := by
  obtain ⟨e1, e2, e3, e4, e5, e6, e7, e8⟩ := joinRoom_badpw B env h c rid pw hA hlt hP hC
  refine ⟨e1, ?_, e4, e5⟩
  rw [e2, List.insert_of_not_mem hnm, List.erase_cons_head]

/-- Claim C6 witness: session 2 (not a member) joins private room "beta" with
a wrong password; the join is rejected and the member set is unchanged. -/
theorem C6_witness :
    (demoHub0.joinRoom toyBcrypt demoEnv 2 0 "nope").2 = .error .invalidPassword ∧
    ((demoHub0.joinRoom toyBcrypt demoEnv 2 0 "nope").1.roomOf 0).Clients =
      (demoHub0.roomOf 0).Clients := by
  have H := C6_invalid_password_rollback toyBcrypt demoEnv demoHub0 2 0 "nope"
    (by decide) (by decide) (by decide) (by decide) (by decide)
  exact ⟨H.1, H.2.1⟩

theorem unregister_preserves_consistent (env : Env) (h : Hub) (c : ClientId)
    (hInv : h.Consistent) : (h.unregisterStep env c).Consistent := by
  obtain ⟨hnd, hpi, hmi⟩ := hInv
  simp only [Hub.unregisterStep]
  split <;> exact ⟨hnd, hpi, hmi⟩

theorem leave_preserves_consistent (env : Env) (h : Hub) (c : ClientId)
    (hInv : h.Consistent) : (h.leaveRoomInternal env c).Consistent := by
  obtain ⟨hnd, hpi, hmi⟩ := hInv
  rcases hp : (h.clientOf c).CurrentRoom with _ | o
  · rw [leaveRoomInternal_none env h c hp]
    exact ⟨hnd, hpi, hmi⟩
  · obtain ⟨l1, l2, l3, _⟩ := leaveRoomInternal_some env h c o hp
    have hio : h.ClientRooms c = some o := by rw [← hpi c, hp]
    refine ⟨fun r' => ?_, fun x => ?_, fun x r' => ?_⟩
    · rw [l1]
      by_cases hr : r' = o
      · subst hr
        rw [Function.update_same]
        exact (hnd r').erase c
      · rw [Function.update_noteq hr]
        exact hnd r'
    · rw [l2, l3]
      by_cases hx : x = c
      · subst hx
        rw [Function.update_same, Function.update_same]
      · rw [Function.update_noteq hx, Function.update_noteq hx]
        exact hpi x
    · rw [l1, l3]
      by_cases hx : x = c
      · subst hx
        rw [Function.update_same]
        by_cases hr : r' = o
        · subst hr
          rw [Function.update_same]
          simp only [removeClient_Clients]
          constructor
          · intro hmem
            exact absurd hmem ((hnd r').not_mem_erase)
          · intro hmem
            exact absurd hmem (by simp)
        · rw [Function.update_noteq hr]
          constructor
          · intro hmem
            have := (hmi x r').1 hmem
            rw [hio] at this
            exact absurd (Option.some.inj this) (Ne.symm hr)
          · intro hmem
            exact absurd hmem (by simp)
      · rw [Function.update_noteq hx]
        by_cases hr : r' = o
        · subst hr
          rw [Function.update_same]
          simp only [removeClient_Clients]
          rw [List.mem_erase_of_ne hx]
          exact hmi x r'
        · rw [Function.update_noteq hr]
          exact hmi x r'

theorem consistent_updateRoom_setCreator (h : Hub) (rid : RoomId) (c : ClientId)
    (hInv : h.Consistent) : (h.updateRoom rid (fun r => r.setCreator c)).Consistent := by
  obtain ⟨hnd, hpi, hmi⟩ := hInv
  refine ⟨fun r' => ?_, hpi, fun x r' => ?_⟩
  · simp only [Hub.updateRoom]
    by_cases hr : r' = rid
    · subst hr
      rw [Function.update_same]
      simpa using hnd r'
    · rw [Function.update_noteq hr]
      exact hnd r'
  · simp only [Hub.updateRoom]
    by_cases hr : r' = rid
    · subst hr
      rw [Function.update_same]
      simpa using hmi x r'
    · rw [Function.update_noteq hr]
      exact hmi x r'

theorem mem_insert_erase_insert (c : ClientId) (s : List ClientId)
    (hm : c ∈ s) (x : ClientId) :
    x ∈ ((s.insert c).erase c).insert c ↔ x ∈ s := by
  rw [List.insert_of_mem hm]
  by_cases hx : x = c
  · subst hx
    simp [List.mem_insert_self, hm]
  · rw [List.mem_insert_iff]
    simp only [hx, false_or]
    exact List.mem_erase_of_ne hx

theorem nodup_insert_erase_insert (c : ClientId) (s : List ClientId)
    (hnd : s.Nodup) : (((s.insert c).erase c).insert c).Nodup :=
  List.Nodup.insert (List.Nodup.erase c (List.Nodup.insert hnd))

theorem join_preserves_consistent (B : Bcrypt) (env : Env) (h : Hub) (c : ClientId)
    (rid : RoomId) (pw : String) (hInv : h.Consistent)
    (hOK : c ∉ (h.roomOf rid).Clients ∨ (h.roomOf rid).Private = false ∨
      B.compare (h.roomOf rid).Password pw = true) :
    ((h.joinRoom B env c rid pw).1).Consistent := by
  obtain ⟨hnd, hpi, hmi⟩ := hInv
  by_cases hA : (h.roomOf rid).Active = false
  · obtain ⟨_, e2⟩ := joinRoom_inactive B env h c rid pw hA
    rw [e2]
    split
    · exact consistent_updateRoom_setCreator h rid c ⟨hnd, hpi, hmi⟩
    · exact ⟨hnd, hpi, hmi⟩
  · have hA' : (h.roomOf rid).Active = true := by
      revert hA
      cases (h.roomOf rid).Active <;> simp
    by_cases hge : ((h.roomOf rid).Clients.length : Int) ≥ (h.roomOf rid).MaxClients
    · obtain ⟨_, e2⟩ := joinRoom_full B env h c rid pw hA' hge
      rw [e2]
      split
      · exact consistent_updateRoom_setCreator h rid c ⟨hnd, hpi, hmi⟩
      · exact ⟨hnd, hpi, hmi⟩
    · have hlt : ((h.roomOf rid).Clients.length : Int) < (h.roomOf rid).MaxClients :=
        lt_of_not_le hge
      by_cases hbad : (h.roomOf rid).Private = true ∧
          B.compare (h.roomOf rid).Password pw = false
      · -- InvalidPassword rollback; hOK forces the session not to be a member
        have hnm : c ∉ (h.roomOf rid).Clients := by
          rcases hOK with hnm | hpriv | hcmp
          · exact hnm
          · rw [hbad.1] at hpriv
            exact absurd hpriv (by simp)
          · rw [hbad.2] at hcmp
            exact absurd hcmp (by simp)
        obtain ⟨e1, e2, e3, e4, e5, e6, e7, e8⟩ :=
          joinRoom_badpw B env h c rid pw hA' hlt hbad.1 hbad.2
        have hcl : ((h.joinRoom B env c rid pw).1.roomOf rid).Clients =
            (h.roomOf rid).Clients := by
          rw [e2, List.insert_of_not_mem hnm, List.erase_cons_head]
        refine ⟨fun r' => ?_, fun x => by rw [e6, e5]; exact hpi x, fun x r' => ?_⟩
        · by_cases hr : r' = rid
          · subst hr
            rw [hcl]
            exact hnd r'
          · rw [e4 r' hr]
            exact hnd r'
        · rw [e5]
          by_cases hr : r' = rid
          · subst hr
            rw [hcl]
            exact hmi x r'
          · rw [e4 r' hr]
            exact hmi x r'
      · -- success paths
        rcases hp : (h.clientOf c).CurrentRoom with _ | o
        · -- no previous room
          have hic : h.ClientRooms c = none := by rw [← hpi c, hp]
          obtain ⟨_, e2, e3, e4, _⟩ := joinRoom_ok_noPrev B env h c rid pw hA' hlt hbad hp
          refine ⟨fun r' => ?_, fun x => ?_, fun x r' => ?_⟩
          · rw [e2]
            by_cases hr : r' = rid
            · subst hr
              rw [Function.update_same]
              exact List.Nodup.insert (hnd r')
            · rw [Function.update_noteq hr]
              exact hnd r'
          · rw [e3, e4]
            by_cases hx : x = c
            · subst hx
              rw [Function.update_same, Function.update_same]
            · rw [Function.update_noteq hx, Function.update_noteq hx]
              exact hpi x
          · rw [e2, e4]
            by_cases hx : x = c
            · subst hx
              rw [Function.update_same]
              by_cases hr : r' = rid
              · subst hr
                rw [Function.update_same]
                simp [List.mem_insert_self]
              · rw [Function.update_noteq hr]
                constructor
                · intro hmem
                  have := (hmi x r').1 hmem
                  rw [hic] at this
                  exact absurd this (by simp)
                · intro hsome
                  exact absurd (Option.some.inj hsome) (Ne.symm hr)
            · rw [Function.update_noteq hx]
              by_cases hr : r' = rid
              · subst hr
                rw [Function.update_same]
                simp only [List.mem_insert_iff, hx, false_or]
                exact hmi x r'
              · rw [Function.update_noteq hr]
                exact hmi x r'
        · by_cases ho : o = rid
          · -- rejoining the same room
            subst ho
            have hic : h.ClientRooms c = some o := by rw [← hpi c, hp]
            have hmem : c ∈ (h.roomOf o).Clients := (hmi c o).2 hic
            obtain ⟨_, e2, e3, e4, _⟩ := joinRoom_ok_prevSame B env h c o pw hA' hlt hbad hp
            refine ⟨fun r' => ?_, fun x => ?_, fun x r' => ?_⟩
            · rw [e2]
              by_cases hr : r' = o
              · subst hr
                rw [Function.update_same]
                exact nodup_insert_erase_insert c _ (hnd r')
              · rw [Function.update_noteq hr]
                exact hnd r'
            · rw [e3, e4]
              by_cases hx : x = c
              · subst hx
                rw [Function.update_same, Function.update_same]
              · rw [Function.update_noteq hx, Function.update_noteq hx]
                exact hpi x
            · rw [e2, e4]
              by_cases hr : r' = o
              · subst hr
                rw [Function.update_same]
                simp only
                rw [mem_insert_erase_insert c _ hmem x]
                by_cases hx : x = c
                · subst hx
                  rw [Function.update_same]
                  simp [hmem]
                · rw [Function.update_noteq hx]
                  exact hmi x r'
              · rw [Function.update_noteq hr]
                by_cases hx : x = c
                · subst hx
                  rw [Function.update_same]
                  constructor
                  · intro hmem'
                    have := (hmi x r').1 hmem'
                    rw [hic] at this
                    exact absurd (Option.some.inj this) (fun hh => hr hh.symm)
                  · intro hsome
                    exact absurd (Option.some.inj hsome) (Ne.symm hr)
                · rw [Function.update_noteq hx]
                  exact hmi x r'
          · -- moving from a different room
            have hic : h.ClientRooms c = some o := by rw [← hpi c, hp]
            have hcs : c ∉ (h.roomOf rid).Clients := by
              intro hmem
              have := (hmi c rid).1 hmem
              rw [hic] at this
              exact ho (Option.some.inj this)
            have hco : c ∈ (h.roomOf o).Clients := (hmi c o).2 hic
            obtain ⟨_, e2, e3, e4, _⟩ :=
              joinRoom_ok_prevOther B env h c rid o pw hA' hlt hbad hp ho
            refine ⟨fun r' => ?_, fun x => ?_, fun x r' => ?_⟩
            · rw [e2]
              by_cases hro : r' = o
              · subst hro
                rw [Function.update_same]
                exact (hnd r').erase c
              · rw [Function.update_noteq hro]
                by_cases hr : r' = rid
                · subst hr
                  rw [Function.update_same]
                  exact List.Nodup.insert (hnd r')
                · rw [Function.update_noteq hr]
                  exact hnd r'
            · rw [e3, e4]
              by_cases hx : x = c
              · subst hx
                rw [Function.update_same, Function.update_same]
              · rw [Function.update_noteq hx, Function.update_noteq hx]
                exact hpi x
            · rw [e2, e4]
              by_cases hro : r' = o
              · subst hro
                rw [Function.update_same]
                simp only [removeClient_Clients]
                by_cases hx : x = c
                · subst hx
                  rw [Function.update_same]
                  constructor
                  · intro hmem'
                    exact absurd hmem' ((hnd r').not_mem_erase)
                  · intro hsome
                    exact absurd (Option.some.inj hsome) (Ne.symm ho)
                · rw [Function.update_noteq hx, List.mem_erase_of_ne hx]
                  exact hmi x r'
              · rw [Function.update_noteq hro]
                by_cases hr : r' = rid
                · subst hr
                  rw [Function.update_same]
                  simp only
                  by_cases hx : x = c
                  · subst hx
                    rw [Function.update_same]
                    simp [List.mem_insert_self]
                  · rw [Function.update_noteq hx]
                    simp only [List.mem_insert_iff, hx, false_or]
                    exact hmi x r'
                · rw [Function.update_noteq hr]
                  by_cases hx : x = c
                  · subst hx
                    rw [Function.update_same]
                    constructor
                    · intro hmem'
                      have := (hmi x r').1 hmem'
                      rw [hic] at this
                      exact absurd (Option.some.inj this) (fun hh => hro hh.symm)
                    · intro hsome
                      exact absurd (Option.some.inj hsome) (Ne.symm hr)
                  · rw [Function.update_noteq hx]
                    exact hmi x r'

/-- Claim C1, counterexample: session 1 joins private room "beta" with the
correct password (index and member set agree); a second JoinRoom on the same
room with a wrong password returns InvalidPassword, after which the
client-to-room index still maps session 1 to the room while the member set no
longer contains it — the agreement the claim states is broken. -/
theorem C1_counterexample :
    demoJoin1.2 = .ok () ∧
    demoJoin1.1.ClientRooms 1 = some 0 ∧
    (1 : ClientId) ∈ (demoJoin1.1.roomOf 0).Clients ∧
    demoJoin2.2 = .error .invalidPassword ∧
    demoJoin2.1.ClientRooms 1 = some 0 ∧
    (1 : ClientId) ∉ (demoJoin2.1.roomOf 0).Clients := by decide

/-- Claim C1 (amended): from any state satisfying the membership agreement
(member sets duplicate-free, pointer mirrors index, membership iff index),
the agreement is preserved by LeaveRoom and Unregister unconditionally, and
by JoinRoom except in the one case the counterexample exhibits — a session
already a member of a private room re-joining it with a non-matching
password; in an agreeing state every session is in at most one member set. -/
theorem C1_membership_agreement (B : Bcrypt) (env : Env) (h : Hub)
    (hInv : h.Consistent) :
    (∀ c rid pw, (c ∉ (h.roomOf rid).Clients ∨ (h.roomOf rid).Private = false ∨
        B.compare (h.roomOf rid).Password pw = true) →
      ((h.joinRoom B env c rid pw).1).Consistent) ∧
    (∀ c, (h.leaveRoom env c).Consistent) ∧
    (∀ c, (h.unregisterStep env c).Consistent) ∧
    (∀ x r1 r2, x ∈ (h.roomOf r1).Clients → x ∈ (h.roomOf r2).Clients → r1 = r2) := by
  refine ⟨fun c rid pw hOK => join_preserves_consistent B env h c rid pw hInv hOK,
    fun c => leave_preserves_consistent env h c hInv,
    fun c => unregister_preserves_consistent env h c hInv,
    fun x r1 r2 h1 h2 => ?_⟩
  have e1 := (hInv.2.2 x r1).1 h1
  have e2 := (hInv.2.2 x r2).1 h2
  rw [e1] at e2
  exact Option.some.inj e2

theorem demoHub0_roomOf_Clients (rid : RoomId) : (demoHub0.roomOf rid).Clients = [] := by
  show ((Function.update (fun _ => Room.new "" false "" 0) 0
    (Room.new "beta" true (toyBcrypt.generate "sekret") 100) : RoomId → Room) rid).Clients = []
  by_cases hr : rid = 0
  · subst hr
    rw [Function.update_same]
    rfl
  · rw [Function.update_noteq hr]
    rfl

theorem demoHub0_consistent : demoHub0.Consistent := by
  refine ⟨fun rid => ?_, fun c => rfl, fun c rid => ?_⟩
  · rw [demoHub0_roomOf_Clients rid]
    exact List.nodup_nil
  · rw [demoHub0_roomOf_Clients rid]
    simp only [List.not_mem_nil, false_iff]
    intro hsome
    exact Option.noConfusion (hsome : (none : Option RoomId) = some rid)

/-- Claim C1 witness: the amended preservation theorem applied to the
bootstrapped hub, whose agreement holds, for a concrete join, leave and
unregister. -/
theorem C1_witness :
    ((demoHub0.joinRoom toyBcrypt demoEnv 1 0 "sekret").1).Consistent ∧
    (demoHub0.leaveRoom demoEnv 1).Consistent ∧
    (demoHub0.unregisterStep demoEnv 1).Consistent := by
  have H := C1_membership_agreement toyBcrypt demoEnv demoHub0 demoHub0_consistent
  exact ⟨H.1 1 0 "sekret" (Or.inl (by decide)), H.2.1 1, H.2.2.1 1⟩

end ChatX
